import Mathlib

/-!
Mobile EPUB reader: chapter pipeline.

A shallow embedding of the Go package `epubreader` (`epub_reader.go`,
`html_processor.go`, `navigation.go`, `mobile_wrapper.go`) together with the
properties of its chapter indexer, content fetcher, markup sanitizer, mobile
presenter, navigation helpers and session wrapper.

Conventions of the embedding:

* a Go `string` is a Lean `String`, read as its sequence of code points
  (texts are taken to be valid UTF-8, as `regexp` and `strings` decode them);
* a Go `int` is an `Int`; a loop counter bounded by a slice length cannot
  overflow, and the sum or difference of an argument and 1 in `navigation.go`
  is wrapped to 64 bits (`wrapInt`);
* a `float64` is an exact rational (`GetBookProgress`);
* a Go `error` is represented by its message (`Option String`, `none` for
  `nil`); wrapping with `%w` concatenates messages exactly as `Error()` does;
* the external collaborators (the EPUB container parser, the HTML parser and
  serializer of `golang.org/x/net/html`) are parameters.
-/

namespace EpubReader

/-! ## `fmt.Sprintf` / `fmt.Errorf` -/

/-- An operand of a formatting call. -/
inductive Arg where
  | str (s : String)
  | int (i : Int)
  | err (msg : String)

/-- The fragment of `fmt.Sprintf` used by the package: the verbs `%s` (string
operand), `%d` (integer operand, decimal), `%w` (error operand, its message)
and the escape `%%`; every other character of the format is copied. Every call
site of the package passes operands matching its verbs in number and kind. -/
def Sprintf : List Char → List Arg → List Char
  | [], _ => []
  | '%' :: '%' :: fs, args => '%' :: Sprintf fs args
  | '%' :: 's' :: fs, Arg.str s :: args => s.data ++ Sprintf fs args
  | '%' :: 'd' :: fs, Arg.int i :: args => (toString i).data ++ Sprintf fs args
  | '%' :: 'w' :: fs, Arg.err m :: args => m.data ++ Sprintf fs args
  | c :: fs, args => c :: Sprintf fs args

/-- Message of `fmt.Errorf(format, args...)` and value of
`fmt.Sprintf(format, args...)`. -/
def Errorf (format : String) (args : List Arg) : String :=
  String.mk (Sprintf format.data args)

/-! ## Regular expressions (`regexp`, leftmost-first semantics) -/

/-- One element of a pattern. The four patterns of `cleanHTML` are sequences
of single characters, greedy repetitions `c*` and lazy repetitions `c*?` of a
character class `c`. -/
inductive Atom where
  | one (p : Char → Bool)
  | star (p : Char → Bool)
  | lazyStar (p : Char → Bool)

/-- Greedy `c*` followed by the continuation `k`: the longer repetition is
preferred, the shorter ones are tried on failure of the rest. The result is the
number of characters matched. -/
def starGreedy (p : Char → Bool) (k : List Char → Option Nat) : List Char → Option Nat
  | [] => k []
  | c :: cs =>
    if p c then
      match starGreedy p k cs with
      | some n => some (n + 1)
      | none => k (c :: cs)
    else k (c :: cs)

/-- Lazy `c*?` followed by the continuation `k`: the rest of the pattern is
tried first, one more character is consumed only when it fails. -/
def starLazy (p : Char → Bool) (k : List Char → Option Nat) : List Char → Option Nat
  | [] => k []
  | c :: cs =>
    match k (c :: cs) with
    | some n => some n
    | none => if p c then (starLazy p k cs).map (· + 1) else none

/-- Length of the match of the pattern anchored at the start of the text, as
found first by a backtracking search (the match `regexp` reports at that
position), or `none` when the pattern does not match there. -/
def matchLen : List Atom → List Char → Option Nat
  | [], _ => some 0
  | Atom.one _ :: _, [] => none
  | Atom.one p :: rest, c :: cs => if p c then (matchLen rest cs).map (· + 1) else none
  | Atom.star p :: rest, s => starGreedy p (matchLen rest) s
  | Atom.lazyStar p :: rest, s => starLazy p (matchLen rest) s

/-- Left-to-right scan of `Regexp.ReplaceAllString`: `skip` counts the
characters of the current match still to be dropped. At each position outside
a match the pattern is tried; a match is replaced by `repl` and the scan resumes
after it, otherwise the character is copied. The patterns of `cleanHTML` all
begin with a mandatory character, so a match is never empty
(`matchLen_one_pos`), and the two replacement texts hold no `$`, so no
template expansion takes place. -/
def replaceAllFrom (re : List Atom) (repl : List Char) : Nat → List Char → List Char
  | _, [] => []
  | skip + 1, _ :: cs => replaceAllFrom re repl skip cs
  | 0, c :: cs =>
    match matchLen re (c :: cs) with
    | some (n + 1) => repl ++ replaceAllFrom re repl n cs
    | _ => c :: replaceAllFrom re repl 0 cs

/-- Function `re.ReplaceAllString(src, repl)`. -/
def ReplaceAllString (re : List Atom) (src repl : List Char) : List Char :=
  replaceAllFrom re repl 0 src

/-- Case-insensitive comparison of a text character `c` with a pattern letter
`l` under `(?i)`: `c` lies in the simple case-folding orbit of `l`. Besides the
two ASCII cases the orbit of `s` holds U+017F and that of `k` holds U+212A. -/
def foldEq (l c : Char) : Bool :=
  c == l || c == l.toUpper || c == l.toLower ||
    ((l == 's' || l == 'S') && c == Char.ofNat 0x17F) ||
    ((l == 'k' || l == 'K') && c == Char.ofNat 0x212A)

/-- A literal, matched exactly. -/
def lit (s : String) : List Atom := s.data.map fun l => Atom.one (· == l)

/-- A literal under the flag `(?i)`. -/
def litFold (s : String) : List Atom := s.data.map fun l => Atom.one (foldEq l)

/-- Class `[^>]`: any character but `>`, newline included. -/
def notGt (c : Char) : Bool := c != '>'

/-- Class `.` without the flag `s`: any character but newline. -/
def dot (c : Char) : Bool := c != '\n'

/-- Class `\s` of `regexp/syntax`: `[\t\n\f\r ]`. -/
def reSpace (c : Char) : Bool :=
  c == '\t' || c == '\n' || c == Char.ofNat 0x0C || c == '\r' || c == ' '

/-- Pattern `(?i)<script[^>]*>.*?</script>`. -/
def scriptRegex : List Atom :=
  litFold "<script" ++ [Atom.star notGt, Atom.one (· == '>'), Atom.lazyStar dot] ++
    litFold "</script>"

/-- Pattern `(?i)<style[^>]*>.*?</style>`. -/
def styleRegex : List Atom :=
  litFold "<style" ++ [Atom.star notGt, Atom.one (· == '>'), Atom.lazyStar dot] ++
    litFold "</style>"

/-- Pattern `<!--.*?-->`. -/
def commentRegex : List Atom :=
  lit "<!--" ++ [Atom.lazyStar dot] ++ lit "-->"

/-- Pattern `\s+`. -/
def whitespaceRegex : List Atom := [Atom.one reSpace, Atom.star reSpace]

/-- Function `unicode.IsSpace`. -/
def isSpace (c : Char) : Bool :=
  let r := c.toNat
  r == 0x09 || r == 0x0A || r == 0x0B || r == 0x0C || r == 0x0D || r == 0x20 ||
    r == 0x85 || r == 0xA0 || r == 0x1680 || (0x2000 ≤ r && r ≤ 0x200A) ||
    r == 0x2028 || r == 0x2029 || r == 0x202F || r == 0x205F || r == 0x3000

/-- Function `strings.TrimSpace`: drops leading and trailing white space. -/
def TrimSpace (s : List Char) : List Char :=
  (s.dropWhile isSpace).rdropWhile isSpace

/-- The three removal passes of `cleanHTML`, in source order: script
elements, style elements, comments. -/
def removalPasses (htmlContent : List Char) : List Char :=
  let htmlContent := ReplaceAllString scriptRegex htmlContent []
  let htmlContent := ReplaceAllString styleRegex htmlContent []
  ReplaceAllString commentRegex htmlContent []

/-- Function `cleanHTML` on code points. -/
def cleanChars (htmlContent : List Char) : List Char :=
  let htmlContent := removalPasses htmlContent
  let htmlContent := ReplaceAllString whitespaceRegex htmlContent [' ']
  TrimSpace htmlContent

/-- Method `(*Reader).cleanHTML` (the receiver is not used). -/
def cleanHTML (htmlContent : String) : String :=
  String.mk (cleanChars htmlContent.data)


/-! ## HTML trees (`golang.org/x/net/html`) -/

/-- Type `html.NodeType`. -/
inductive NodeType where
  | ErrorNode | TextNode | DocumentNode | ElementNode | CommentNode | DoctypeNode | RawNode
  deriving DecidableEq, Repr

/-- Type `html.Attribute`. -/
structure Attribute where
  Namespace : String
  Key : String
  Val : String
  deriving DecidableEq, Repr

/-- Type `html.Node`, with the sibling chain `FirstChild`/`NextSibling` as the list
of children. -/
inductive Node where
  | mk (Typ : NodeType) (Data : String) (Attr : List Attribute) (children : List Node)

/-- Field `Type` (a reserved word here, hence `Typ`). -/
def Node.Typ : Node → NodeType
  | Node.mk t _ _ _ => t

/-- Field `Data`. -/
def Node.Data : Node → String
  | Node.mk _ d _ _ => d

/-- The children, from `FirstChild` along `NextSibling`. -/
def Node.children : Node → List Node
  | Node.mk _ _ _ cs => cs

/-- The HTML library as used by the package: `html.Parse` on the text of a
reader, and the buffer contents left by `html.Render` (`renderNode`, which
ignores the error result of `html.Render`). -/
structure HtmlLib where
  Parse : String → Except String Node
  renderNode : Node → String

mutual
/-- Method `(*Reader).extractBodyContent`. -/
def extractBodyContent (renderNode : Node → String) : Node → String
  | Node.mk type data attr children =>
    if type = NodeType.ElementNode ∧ data = "body" then
      renderNode (Node.mk type data attr children)
    else
      match extractBodyContentChildren renderNode children with
      | some content => content
      | none => renderNode (Node.mk type data attr children)
/-- The loop of `extractBodyContent` over the children: the first non-empty
result of a child, or `none` when the loop runs to its end. -/
def extractBodyContentChildren (renderNode : Node → String) : List Node → Option String
  | [] => none
  | child :: rest =>
    let content := extractBodyContent renderNode child
    if content ≠ "" then some content
    else extractBodyContentChildren renderNode rest
end

mutual
/-- A serializer for trees of attribute-free, non-void elements and text
without characters that need escaping, in the format of `html.Render`: an
element is its start tag, its children and its end tag, a text node is its
text, a document is its children. An instance of the `renderNode` parameter. -/
def renderPlain : Node → String
  | Node.mk NodeType.ElementNode data _ children =>
    "<" ++ data ++ ">" ++ renderPlainList children ++ "</" ++ data ++ ">"
  | Node.mk NodeType.TextNode data _ _ => data
  | Node.mk NodeType.DocumentNode _ _ children => renderPlainList children
  | Node.mk _ _ _ _ => ""
/-- Concatenated serializations of a list of nodes. -/
def renderPlainList : List Node → String
  | [] => ""
  | n :: ns => renderPlain n ++ renderPlainList ns
end


/-! ## The EPUB container (`github.com/taylorskalyo/goreader/epub`) -/

/-- Type `epub.Metadata`, the fields read by the package. -/
structure epub.Metadata where
  Title : String
  Creator : String
  Description : String
  Publisher : String
  Language : String
  Identifier : String
  deriving DecidableEq, Repr

/-- Type `epub.Item`, a manifest entry. -/
structure epub.Item where
  ID : String
  HREF : String
  MediaType : String
  deriving DecidableEq, Repr

/-- Type `epub.Itemref`, a spine entry. -/
structure epub.Itemref where
  IDREF : String
  deriving DecidableEq, Repr

/-- Type `epub.Manifest`. -/
structure epub.Manifest where
  Items : List epub.Item
  deriving DecidableEq, Repr

/-- Type `epub.Spine`. -/
structure epub.Spine where
  Itemrefs : List epub.Itemref
  deriving DecidableEq, Repr

/-- Type `epub.Rootfile` with its embedded package. -/
structure epub.Rootfile where
  FullPath : String
  Metadata : epub.Metadata
  Manifest : epub.Manifest
  Spine : epub.Spine
  deriving DecidableEq, Repr

/-- Type `epub.Reader`: the root files of the container and the archive behind the
manifest items. `Open item` is `item.Open()` followed by `io.ReadAll`: the
outer error is that of opening the entry, the inner one that of reading it,
the value the bytes read, as a string. -/
structure epub.Reader where
  Rootfiles : List epub.Rootfile
  Open : epub.Item → Except String (Except String String)

/-! ## `epub_reader.go` -/

/-- Type `BookMetadata`. -/
structure BookMetadata where
  Title : String
  Author : String
  Description : String
  Publisher : String
  Language : String
  Identifier : String
  deriving DecidableEq, Repr

/-- Type `Chapter`. -/
structure Chapter where
  Title : String
  Index : Int
  ID : String
  Filepath : String
  deriving DecidableEq, Repr

/-- Type `Reader`. -/
structure Reader where
  reader : epub.Reader
  chapters : List Chapter
  metadata : BookMetadata
  zipData : List Nat

/-- Method `(*Reader).extractMetadata`: the updated reader and the error. -/
def extractMetadata (e : Reader) : Reader × Option String :=
  match e.reader.Rootfiles with
  | [] => (e, some (Errorf "no rootfiles found" []))
  | rootfile :: _ =>
    let metadata := rootfile.Metadata
    let e := { e with metadata :=
      { Title := metadata.Title
        Author := metadata.Creator
        Description := metadata.Description
        Publisher := metadata.Publisher
        Language := metadata.Language
        Identifier := metadata.Identifier } }
    let e := if e.metadata.Title = "" then
      { e with metadata := { e.metadata with Title := "Unknown Title" } } else e
    let e := if e.metadata.Author = "" then
      { e with metadata := { e.metadata with Author := "Unknown Author" } } else e
    (e, none)

/-- The map `manifest` of `extractChapters` after its first loop: each item is
stored under its ID, a later item replacing an earlier one with the same ID. A
key that was never stored reads as `nil` (`none`). -/
def buildManifest (items : List epub.Item) : String → Option epub.Item :=
  items.foldl (fun manifest item => fun k => if k = item.ID then some item else manifest k)
    (fun _ => none)

/-- The second loop of `extractChapters`, from spine position `i` on, with the
chapters appended so far. -/
def chapterLoop (manifest : String → Option epub.Item) :
    Nat → List epub.Itemref → List Chapter → List Chapter
  | _, [], chapters => chapters
  | i, itemref :: rest, chapters =>
    match manifest itemref.IDREF with
    | none => chapterLoop manifest (i + 1) rest chapters
    | some manifestItem =>
      let chapter : Chapter :=
        { Index := i
          ID := itemref.IDREF
          Filepath := manifestItem.HREF
          Title := Errorf "Chapter %d" [Arg.int (i + 1)] }
      chapterLoop manifest (i + 1) rest (chapters ++ [chapter])

/-- Method `(*Reader).extractChapters`: the updated reader and the error. -/
def extractChapters (e : Reader) : Reader × Option String :=
  match e.reader.Rootfiles with
  | [] => (e, some (Errorf "no rootfiles found" []))
  | rootfile :: _ =>
    let spine := rootfile.Spine
    let manifest := buildManifest rootfile.Manifest.Items
    ({ e with chapters := chapterLoop manifest 0 spine.Itemrefs [] }, none)

/-- Method `(*Reader).GetMetadata`. -/
def GetMetadata (e : Reader) : BookMetadata := e.metadata

/-- Method `(*Reader).GetChapterCount`. -/
def GetChapterCount (e : Reader) : Int := e.chapters.length

/-- Method `(*Reader).GetTOC`. -/
def GetTOC (e : Reader) : List Chapter := e.chapters

/-- Result of a call that may read the archive: the returned string, the
returned error, and the manifest items opened during the call, in order. -/
structure Outcome where
  value : String
  err : Option String
  opened : List epub.Item
  deriving DecidableEq, Repr

/-- The manifest search of `GetChapterContent`: the first item with the given
ID. -/
def findItem (items : List epub.Item) (id : String) : Option epub.Item :=
  items.find? fun item => item.ID = id

/-- Method `(*Reader).GetChapterContent`. -/
def GetChapterContent (e : Reader) (chapterIndex : Int) : Outcome :=
  if h : chapterIndex < 0 ∨ chapterIndex ≥ e.chapters.length then
    ⟨"", some (Errorf "chapter index %d out of range" [Arg.int chapterIndex]), []⟩
  else
    let chapter := e.chapters.get ⟨chapterIndex.toNat, by omega⟩
    match e.reader.Rootfiles with
    | [] => ⟨"", some (Errorf "no rootfiles found" []), []⟩
    | rootfile :: _ =>
      match findItem rootfile.Manifest.Items chapter.ID with
      | none => ⟨"", some (Errorf "item not found for chapter: %s" [Arg.str chapter.ID]), []⟩
      | some item =>
        match e.reader.Open item with
        | Except.error err =>
          ⟨"", some (Errorf "failed to open chapter content: %w" [Arg.err err]), [item]⟩
        | Except.ok (Except.error err) =>
          ⟨"", some (Errorf "failed to read chapter content: %w" [Arg.err err]), [item]⟩
        | Except.ok (Except.ok content) => ⟨content, none, [item]⟩

/-! ## `html_processor.go` -/

/-- The shell before the title: the template up to the first `%s`. -/
def shellHead : String :=
  "<!DOCTYPE html>\n" ++
  "<html lang=\"en\">\n" ++
  "<head>\n" ++
  "    <meta charset=\"UTF-8\">\n" ++
  "    <meta name=\"viewport\" content=\"width=device-width, initial-scale=1.0\">\n" ++
  "    <title>"

/-- The template between the title slot and the escape `%%` of `max-width: 100%%`. -/
def styleTop : String :=
  "</title>\n" ++
  "    <style>\n" ++
  "        body \x7b\n" ++
  "            font-family: -apple-system, BlinkMacSystemFont, 'Segoe UI', Roboto, sans-serif;\n" ++
  "            line-height: 1.6;\n" ++
  "            margin: 16px;\n" ++
  "            background-color: #ffffff;\n" ++
  "            color: #333333;\n" ++
  "        \x7d\n" ++
  "        \n" ++
  "        p \x7b\n" ++
  "            margin: 0 0 1em 0;\n" ++
  "            text-align: justify;\n" ++
  "        \x7d\n" ++
  "        \n" ++
  "        h1, h2, h3, h4, h5, h6 \x7b\n" ++
  "            margin: 1.5em 0 0.5em 0;\n" ++
  "            line-height: 1.2;\n" ++
  "        \x7d\n" ++
  "        \n" ++
  "        img \x7b\n" ++
  "            max-width: 100"

/-- The template between the escape `%%` and the content slot. -/
def styleRest : String :=
  ";\n" ++
  "            height: auto;\n" ++
  "        \x7d\n" ++
  "        \n" ++
  "        blockquote \x7b\n" ++
  "            margin: 1em 20px;\n" ++
  "            padding: 10px 20px;\n" ++
  "            background-color: #f5f5f5;\n" ++
  "            border-left: 4px solid #ddd;\n" ++
  "        \x7d\n" ++
  "        \n" ++
  "        /* Dark mode support */\n" ++
  "        @media (prefers-color-scheme: dark) \x7b\n" ++
  "            body \x7b\n" ++
  "                background-color: #1a1a1a;\n" ++
  "                color: #e0e0e0;\n" ++
  "            \x7d\n" ++
  "            blockquote \x7b\n" ++
  "                background-color: #333;\n" ++
  "                border-left-color: #555;\n" ++
  "            \x7d\n" ++
  "        \x7d\n" ++
  "    </style>\n" ++
  "</head>\n" ++
  "<body>\n" ++
  "    "

/-- The shell after the content: the template after the second `%s`. -/
def shellTail : String :=
  "\n" ++
  "</body>\n" ++
  "</html>"

/-- The format string of `wrapForMobile`, the raw string literal of the source
cut at its three verbs: title slot `%s`, escape `%%`, content slot `%s`. -/
def mobileTemplate : String :=
  shellHead ++ "%s" ++ styleTop ++ "%%" ++ styleRest ++ "%s" ++ shellTail

/-- The shell between the title and the content, as printed: the escape `%%`
is one percent sign. -/
def shellMid : String :=
  styleTop ++ "%" ++ styleRest

/-- Method `(*Reader).wrapForMobile`. -/
def wrapForMobile (e : Reader) (content : String) : String :=
  Errorf mobileTemplate [Arg.str e.metadata.Title, Arg.str content]

/-- Method `(*Reader).processHTML`: the returned string and error. -/
def processHTML (lib : HtmlLib) (e : Reader) (rawHTML : String) : String × Option String :=
  match lib.Parse rawHTML with
  | Except.error err => ("", some err)
  | Except.ok doc =>
    let bodyContent := extractBodyContent lib.renderNode doc
    let cleanedContent := cleanHTML bodyContent
    let mobileHTML := wrapForMobile e cleanedContent
    (mobileHTML, none)

/-- Method `(*Reader).GetChapterHTML`. -/
def GetChapterHTML (lib : HtmlLib) (e : Reader) (chapterIndex : Int) : Outcome :=
  if chapterIndex < 0 ∨ chapterIndex ≥ e.chapters.length then
    ⟨"", some (Errorf "chapter index %d out of range" [Arg.int chapterIndex]), []⟩
  else
    let content := GetChapterContent e chapterIndex
    match content.err with
    | some err =>
      ⟨"", some (Errorf "failed to read chapter content: %w" [Arg.err err]), content.opened⟩
    | none =>
      match processHTML lib e content.value with
      | (_, some err) =>
        ⟨"", some (Errorf "failed to process HTML: %w" [Arg.err err]), content.opened⟩
      | (html, none) => ⟨html, none, content.opened⟩

/-- Function `OpenEpub`: the reader (`nil` as `none`) and the error. `NewReader` is
`epub.NewReader` on the bytes of the archive. -/
def OpenEpub (NewReader : List Nat → Except String epub.Reader) (data : List Nat) :
    Option Reader × Option String :=
  match NewReader data with
  | Except.error err => (none, some (Errorf "failed to create epub reader: %w" [Arg.err err]))
  | Except.ok epubReader =>
    let e : Reader :=
      { reader := epubReader
        chapters := []
        metadata := ⟨"", "", "", "", "", ""⟩
        zipData := data }
    match extractMetadata e with
    | (_, some err) => (none, some (Errorf "failed to extract metadata: %w" [Arg.err err]))
    | (e, none) =>
      match extractChapters e with
      | (_, some err) => (none, some (Errorf "failed to extract chapters: %w" [Arg.err err]))
      | (e, none) => (some e, none)

/-! ## Sample data -/

/-- An element node without attributes. -/
def elem (tag : String) (children : List Node) : Node :=
  Node.mk NodeType.ElementNode tag [] children

/-- A text node. -/
def textNode (data : String) : Node := Node.mk NodeType.TextNode data [] []

/-- The `head` element the parser inserts. -/
def sampleHead : Node := elem "head" []

/-- The `body` element of the sample chapter. -/
def sampleBody : Node :=
  elem "body" [elem "p" [textNode "Hello", elem "script" [textNode "evil()"]]]

/-- The tree `html.Parse` builds for
`<html><body><p>Hello<script>evil()</script></p></body></html>`:
document > html > [head, body > p > ["Hello", script > "evil()"]]. -/
def sampleDoc : Node :=
  Node.mk NodeType.DocumentNode "" [] [elem "html" [sampleHead, sampleBody]]

/-- Markup of the sample chapter. -/
def sampleMarkup : String :=
  "<html><body><p>Hello<script>evil()</script></p></body></html>"

/-- An HTML library instance: the parser returns the sample tree, the
serializer is `renderPlain`. -/
def sampleLib : HtmlLib :=
  { Parse := fun _ => Except.ok sampleDoc
    renderNode := renderPlain }

/-- Package of the sample book: two manifest items and a spine of three
entries, the second of which has no manifest item. -/
def sampleRootfile : epub.Rootfile :=
  { FullPath := "OEBPS/content.opf"
    Metadata := ⟨"Sample", "", "", "", "en", "urn:sample"⟩
    Manifest := ⟨[⟨"ch1", "text/ch1.xhtml", "application/xhtml+xml"⟩,
      ⟨"ch3", "text/ch3.xhtml", "application/xhtml+xml"⟩]⟩
    Spine := ⟨[⟨"ch1"⟩, ⟨"ch2"⟩, ⟨"ch3"⟩]⟩ }

/-- Archive of the sample book; every entry holds the sample markup. -/
def sampleArchive : epub.Reader :=
  { Rootfiles := [sampleRootfile]
    Open := fun _ => Except.ok (Except.ok sampleMarkup) }

/-- A freshly allocated reader on the sample archive, as `OpenEpub` builds it
before extraction. -/
def sampleFresh : Reader :=
  { reader := sampleArchive
    chapters := []
    metadata := ⟨"", "", "", "", "", ""⟩
    zipData := [] }

/-- The sample book after `extractMetadata` and `extractChapters`. -/
def sampleReader : Reader := (extractChapters (extractMetadata sampleFresh).1).1

/-! ## Normal form of the whitespace pass -/

/-- Every `\s` character of the text is a space that is not followed by a
`\s` character. -/
def tidy : List Char → Bool
  | [] => true
  | c :: cs =>
    if reSpace c then
      c == ' ' && (match cs with
        | [] => true
        | d :: _ => !reSpace d) && tidy cs
    else tidy cs

/-! ## `navigation.go` -/

/-- Result of an `int` operation: the two's complement value in 64 bits of the
mathematical result. -/
def wrapInt (x : Int) : Int := (x + 2 ^ 63) % 2 ^ 64 - 2 ^ 63

/-- Method `(*Reader).GetNextChapterHTML`. -/
def GetNextChapterHTML (lib : HtmlLib) (e : Reader) (currentIndex : Int) : Outcome :=
  let nextIndex := wrapInt (currentIndex + 1)
  if nextIndex ≥ e.chapters.length then
    ⟨"", some (Errorf "no next chapter available" []), []⟩
  else GetChapterHTML lib e nextIndex

/-- Method `(*Reader).GetPrevChapterHTML`. -/
def GetPrevChapterHTML (lib : HtmlLib) (e : Reader) (currentIndex : Int) : Outcome :=
  let prevIndex := wrapInt (currentIndex - 1)
  if prevIndex < 0 then
    ⟨"", some (Errorf "no previous chapter available" []), []⟩
  else GetChapterHTML lib e prevIndex

/-- Method `(*Reader).HasNextChapter`. -/
def HasNextChapter (e : Reader) (currentIndex : Int) : Bool :=
  decide (wrapInt (currentIndex + 1) < e.chapters.length)

/-- Method `(*Reader).HasPrevChapter`. -/
def HasPrevChapter (_e : Reader) (currentIndex : Int) : Bool :=
  decide (currentIndex > 0)

/-- Method `(*Reader).GetChapterTitle`. -/
def GetChapterTitle (e : Reader) (chapterIndex : Int) : String :=
  if h : chapterIndex < 0 ∨ chapterIndex ≥ e.chapters.length then ""
  else (e.chapters.get ⟨chapterIndex.toNat, by omega⟩).Title

/-- The loop of `FindChapterByTitle` from position `i` on: the position of the
first chapter whose title is equal to `title`, or -1 after the last chapter. -/
def findTitleLoop (title : String) : Nat → List Chapter → Int
  | _, [] => -1
  | i, chapter :: rest =>
    if chapter.Title = title then i else findTitleLoop title (i + 1) rest

/-- Method `(*Reader).FindChapterByTitle`. -/
def FindChapterByTitle (e : Reader) (title : String) : Int :=
  findTitleLoop title 0 e.chapters

/-- Method `(*Reader).GetBookProgress`. The `float64` values are modelled by
exact rationals: the conversions of the two integers, the quotient, the
product with 100 and the comparison with 100 are taken without rounding. -/
def GetBookProgress (e : Reader) (currentChapter : Int) : ℚ :=
  if e.chapters.length = 0 then 0
  else
    let progress := (currentChapter : ℚ) / (e.chapters.length : ℚ) * 100
    if progress > 100 then 100 else progress

/-! ## `mobile_wrapper.go` -/

namespace Wrapper

/-- Function `OpenEpubFromBytes` on the session slot `globalReader` (`nil` as
`none`): the new value of the slot and the returned error. -/
def OpenEpubFromBytes (NewReader : List Nat → Except String epub.Reader) (data : List Nat)
    (globalReader : Option Reader) : Option Reader × Option String :=
  match OpenEpub NewReader data with
  | (_, some err) => (globalReader, some err)
  | (reader, none) => (reader, none)

/-- Function `GetBookInfo`. `Marshal` is `json.Marshal` on the map of the six
metadata fields and the chapter count. -/
def GetBookInfo (Marshal : BookMetadata → Int → String) (globalReader : Option Reader) :
    String :=
  match globalReader with
  | none => "\x7b\"error\": \"no book loaded\"\x7d"
  | some reader =>
    let metadata := GetMetadata reader
    Marshal metadata (EpubReader.GetChapterCount reader)

/-- Function `GetReadingProgress`. -/
def GetReadingProgress (globalReader : Option Reader) (currentChapter : Int) : ℚ :=
  match globalReader with
  | none => 0
  | some reader => GetBookProgress reader currentChapter

/-- Function `GetChapterCount` of the wrapper. -/
def GetChapterCount (globalReader : Option Reader) : Int :=
  match globalReader with
  | none => 0
  | some reader => EpubReader.GetChapterCount reader

/-- Function `CloseBook`: the new value of the slot. -/
def CloseBook (_globalReader : Option Reader) : Option Reader := none

end Wrapper

/-! ## Further sample data -/

/-- The tree `html.Parse` builds for a frameset document
`<html><head></head><frameset></frameset></html>`, which has no body element:
document > html > [head, frameset]. -/
def sampleFrameset : Node :=
  Node.mk NodeType.DocumentNode "" [] [elem "html" [sampleHead, elem "frameset" []]]

/-- A package whose manifest holds two items with the ID `ch1`. -/
def dupRootfile : epub.Rootfile :=
  { FullPath := "OEBPS/content.opf"
    Metadata := ⟨"Sample", "", "", "", "en", "urn:sample"⟩
    Manifest := ⟨[⟨"ch1", "text/a.xhtml", "application/xhtml+xml"⟩,
      ⟨"ch1", "text/b.xhtml", "application/xhtml+xml"⟩]⟩
    Spine := ⟨[⟨"ch1"⟩]⟩ }

/-- An archive on `dupRootfile`; an entry holds its own path as contents. -/
def dupArchive : epub.Reader :=
  { Rootfiles := [dupRootfile]
    Open := fun item => Except.ok (Except.ok item.HREF) }

/-- An `epub.NewReader` that rejects empty data and otherwise returns the archive
`dupArchive`. -/
def dupNewReader (data : List Nat) : Except String epub.Reader :=
  if data = [] then Except.error "zip: not a valid zip file" else Except.ok dupArchive

/-- An `epub.NewReader` that rejects empty data and otherwise returns the
sample archive. -/
def sampleNewReader (data : List Nat) : Except String epub.Reader :=
  if data = [] then Except.error "zip: not a valid zip file" else Except.ok sampleArchive

/-- An archive without root file. -/
def emptyArchive : epub.Reader :=
  { Rootfiles := []
    Open := fun _ => Except.error "no such entry" }

/-! ## Auxiliary notions of the proofs -/

/-- Value of a decimal digit string. -/
def digitsValue (cs : List Char) (start : Nat) : Nat :=
  cs.foldl (fun a c => a * 10 + (c.toNat - 48)) start

/-- The titles of a chapter list are pairwise distinct and each numbers a spine
position below `n`. -/
def TitlesBelow (n : Nat) (l : List Chapter) : Prop :=
  l.Pairwise (fun a b => a.Title ≠ b.Title) ∧
    ∀ c ∈ l, ∃ k, k < n ∧ c.Title = Errorf "Chapter %d" [Arg.int ((k : Int) + 1)]

/-! # Properties -/

/-! ## Lemmas on the whitespace pass -/

theorem starGreedy_const (p : Char → Bool) (s : List Char) :
    starGreedy p (fun _ => some 0) s = some (s.takeWhile p).length := by
  induction s with
  | nil => rfl
  | cons c cs ih =>
    by_cases hc : p c = true
    · simp [starGreedy, hc, ih, List.takeWhile]
    · simp [starGreedy, hc, List.takeWhile]

theorem matchLen_nil_fun : matchLen [] = fun _ => some 0 := by
  funext s
  cases s <;> rfl

theorem matchLen_whitespace_pos (c : Char) (cs : List Char) (hc : reSpace c = true) :
    matchLen whitespaceRegex (c :: cs) = some ((cs.takeWhile reSpace).length + 1) := by
  simp [whitespaceRegex, matchLen, hc, matchLen_nil_fun, starGreedy_const]

theorem matchLen_whitespace_neg (c : Char) (cs : List Char) (hc : reSpace c = false) :
    matchLen whitespaceRegex (c :: cs) = none := by
  simp [whitespaceRegex, matchLen, hc]

theorem replaceAllFrom_skip (re : List Atom) (repl : List Char) (k : Nat) (s : List Char) :
    replaceAllFrom re repl k s = replaceAllFrom re repl 0 (s.drop k) := by
  induction k generalizing s with
  | zero => simp
  | succ k ih =>
    cases s with
    | nil => simp [replaceAllFrom]
    | cons c cs => simp [replaceAllFrom, ih cs]

theorem drop_takeWhile_length (p : Char → Bool) (s : List Char) :
    s.drop (s.takeWhile p).length = s.dropWhile p := by
  induction s with
  | nil => rfl
  | cons c cs ih =>
    by_cases hc : p c = true
    · simp [List.takeWhile, List.dropWhile, hc, ih]
    · simp [List.takeWhile, List.dropWhile, hc]

/-- A non-space character is copied by the whitespace pass. -/
theorem collapse_cons_neg (c : Char) (cs : List Char) (hc : reSpace c = false) :
    ReplaceAllString whitespaceRegex (c :: cs) [' '] =
      c :: ReplaceAllString whitespaceRegex cs [' '] := by
  simp [ReplaceAllString, replaceAllFrom, matchLen_whitespace_neg c cs hc]

/-- A maximal run of `\s` characters becomes one space. -/
theorem collapse_cons_pos (c : Char) (cs : List Char) (hc : reSpace c = true) :
    ReplaceAllString whitespaceRegex (c :: cs) [' '] =
      ' ' :: ReplaceAllString whitespaceRegex (cs.dropWhile reSpace) [' '] := by
  simp only [ReplaceAllString, replaceAllFrom, matchLen_whitespace_pos c cs hc]
  rw [replaceAllFrom_skip, drop_takeWhile_length]
  rfl


/-- A pattern that begins with a mandatory character has no empty match. -/
theorem matchLen_one_pos (p : Char → Bool) (rest : List Atom) (s : List Char) (n : Nat)
    (h : matchLen (Atom.one p :: rest) s = some n) : 0 < n := by
  cases s with
  | nil => simp [matchLen] at h
  | cons c cs =>
    by_cases hc : p c = true
    · simp only [matchLen, hc, if_true] at h
      cases hm : matchLen rest cs with
      | none => simp [hm] at h
      | some m =>
        rw [hm] at h
        have h2 : m + 1 = n := Option.some.inj h
        omega
    · simp [matchLen, hc] at h

/-- None of the four patterns of `cleanHTML` matches the empty text. -/
theorem patterns_match_nonempty (s : List Char) (n : Nat) :
    (matchLen scriptRegex s = some n → 0 < n) ∧ (matchLen styleRegex s = some n → 0 < n) ∧
    (matchLen commentRegex s = some n → 0 < n) ∧
    (matchLen whitespaceRegex s = some n → 0 < n) :=
  ⟨matchLen_one_pos _ _ s n, matchLen_one_pos _ _ s n, matchLen_one_pos _ _ s n,
    matchLen_one_pos _ _ s n⟩

theorem collapse_nil : ReplaceAllString whitespaceRegex [] [' '] = [] := rfl

theorem head_dropWhile_reSpace (s : List Char) :
    s.dropWhile reSpace = [] ∨
      ∃ d ds, s.dropWhile reSpace = d :: ds ∧ reSpace d = false := by
  induction s with
  | nil => exact Or.inl rfl
  | cons c cs ih =>
    by_cases hc : reSpace c = true
    · simpa [List.dropWhile, hc] using ih
    · exact Or.inr ⟨c, cs, by simp [List.dropWhile, hc], by simpa using hc⟩

theorem tidy_collapse_aux (n : Nat) :
    ∀ s : List Char, s.length ≤ n → tidy (ReplaceAllString whitespaceRegex s [' ']) = true := by
  induction n with
  | zero =>
    intro s hs
    have : s = [] := List.length_eq_zero.mp (Nat.le_zero.mp hs)
    subst this
    rfl
  | succ n ih =>
    intro s hs
    cases s with
    | nil => rfl
    | cons c cs =>
      have hcs : cs.length ≤ n := by simpa using hs
      by_cases hc : reSpace c = true
      · rw [collapse_cons_pos c cs hc]
        have hlen : (cs.dropWhile reSpace).length ≤ n :=
          Nat.le_trans (List.dropWhile_sublist reSpace).length_le hcs
        have ht := ih _ hlen
        rcases head_dropWhile_reSpace cs with h | ⟨d, ds, h, hd⟩
        · rw [h]
          decide
        · rw [h] at ht ⊢
          rw [collapse_cons_neg d ds hd] at ht ⊢
          simp only [tidy, hd] at ht ⊢
          simpa [reSpace] using ht
      · have hc2 : reSpace c = false := by simpa using hc
        rw [collapse_cons_neg c cs hc2]
        simp only [tidy, hc2]
        simpa using ih cs hcs

/-- The output of the whitespace pass is tidy. -/
theorem tidy_collapse (s : List Char) :
    tidy (ReplaceAllString whitespaceRegex s [' ']) = true :=
  tidy_collapse_aux s.length s (Nat.le_refl _)

/-- The whitespace pass leaves a tidy text unchanged. -/
theorem collapse_of_tidy (s : List Char) (h : tidy s = true) :
    ReplaceAllString whitespaceRegex s [' '] = s := by
  induction s with
  | nil => rfl
  | cons c cs ih =>
    by_cases hc : reSpace c = true
    · rw [collapse_cons_pos c cs hc]
      simp only [tidy, hc, if_true, Bool.and_eq_true] at h
      obtain ⟨⟨h1, h2⟩, h3⟩ := h
      have hceq : c = ' ' := by simpa using h1
      cases cs with
      | nil => simp [hceq, collapse_nil]
      | cons d ds =>
        have hd : reSpace d = false := by simpa using h2
        rw [List.dropWhile_cons_of_neg (by simp [hd]), ih h3, hceq]
    · have hc2 : reSpace c = false := by simpa using hc
      rw [collapse_cons_neg c cs hc2]
      simp only [tidy, hc2] at h
      rw [ih (by simpa using h)]

theorem tidy_append_left (a b : List Char) (h : tidy (a ++ b) = true) : tidy a = true := by
  induction a with
  | nil => rfl
  | cons c cs ih =>
    by_cases hc : reSpace c = true
    · simp only [List.cons_append, tidy, hc, if_true, Bool.and_eq_true] at h ⊢
      obtain ⟨⟨h1, h2⟩, h3⟩ := h
      refine ⟨⟨h1, ?_⟩, ih h3⟩
      cases cs with
      | nil => rfl
      | cons d ds => simpa using h2
    · have hc2 : reSpace c = false := by simpa using hc
      simp only [List.cons_append, tidy, hc2] at h ⊢
      exact ih (by simpa using h)

theorem tidy_append_right (a b : List Char) (h : tidy (a ++ b) = true) : tidy b = true := by
  induction a with
  | nil => simpa using h
  | cons c cs ih =>
    by_cases hc : reSpace c = true
    · simp only [List.cons_append, tidy, hc, if_true, Bool.and_eq_true] at h
      exact ih h.2
    · have hc2 : reSpace c = false := by simpa using hc
      simp only [List.cons_append, tidy, hc2] at h
      exact ih (by simpa using h)

theorem tidy_trimSpace (s : List Char) (h : tidy s = true) : tidy (TrimSpace s) = true := by
  unfold TrimSpace
  obtain ⟨t, ht⟩ := List.rdropWhile_prefix isSpace (s.dropWhile isSpace)
  apply tidy_append_left _ t
  rw [ht]
  apply tidy_append_right (s.takeWhile isSpace)
  rw [List.takeWhile_append_dropWhile]
  exact h

theorem tidy_cleanChars (x : List Char) : tidy (cleanChars x) = true :=
  tidy_trimSpace _ (tidy_collapse _)

theorem tidy_mem (s : List Char) (h : tidy s = true) (c : Char) (hc : c ∈ s)
    (hs : reSpace c = true) : c = ' ' := by
  induction s with
  | nil => cases hc
  | cons d ds ih =>
    by_cases hd : reSpace d = true
    · simp only [tidy, hd, if_true, Bool.and_eq_true] at h
      rcases List.mem_cons.mp hc with rfl | hmem
      · simpa using h.1.1
      · exact ih h.2 hmem
    · have hd2 : reSpace d = false := by simpa using hd
      simp only [tidy, hd2] at h
      rcases List.mem_cons.mp hc with rfl | hmem
      · rw [hs] at hd2
        cases hd2
      · exact ih (by simpa using h) hmem

theorem tidy_no_double_space (s : List Char) (h : tidy s = true) :
    ¬ [' ', ' '] <:+: s := by
  rintro ⟨a, b, hab⟩
  have h1 : tidy (a ++ ([' ', ' '] ++ b)) = true := by
    rw [← List.append_assoc, hab]
    exact h
  have h2 := tidy_append_right a _ h1
  simp [tidy, reSpace] at h2

theorem isSpace_of_reSpace (c : Char) (h : reSpace c = true) : isSpace c = true := by
  simp only [reSpace, Bool.or_eq_true, beq_iff_eq] at h
  rcases h with (((h | h) | h) | h) | h <;> subst h <;> decide

theorem trimSpace_head (s : List Char) (c : Char) (h : (TrimSpace s).head? = some c) :
    isSpace c = false := by
  unfold TrimSpace at h
  obtain ⟨t, ht⟩ := List.rdropWhile_prefix isSpace (s.dropWhile isSpace)
  have h1 := List.head?_dropWhile_not isSpace s
  rw [← ht] at h1
  cases hr : List.rdropWhile isSpace (List.dropWhile isSpace s) with
  | nil => rw [hr] at h; cases h
  | cons d ds =>
    rw [hr] at h h1
    simp only [List.head?_cons, Option.some.injEq] at h
    subst h
    simpa using h1

theorem trimSpace_last (s : List Char) (c : Char) (h : (TrimSpace s).getLast? = some c) :
    isSpace c = false := by
  unfold TrimSpace at h
  have hne : List.rdropWhile isSpace (List.dropWhile isSpace s) ≠ [] := by
    intro h0
    rw [h0] at h
    cases h
  have h1 := List.rdropWhile_last_not isSpace (List.dropWhile isSpace s) hne
  rw [List.getLast?_eq_getLast _ hne] at h
  simp only [Option.some.injEq] at h
  rw [h] at h1
  simpa using h1

theorem trimSpace_fixed (s : List Char)
    (hh : ∀ c, s.head? = some c → isSpace c = false)
    (hl : ∀ c, s.getLast? = some c → isSpace c = false) : TrimSpace s = s := by
  unfold TrimSpace
  have h1 : s.dropWhile isSpace = s := by
    cases s with
    | nil => rfl
    | cons c cs =>
      have := hh c rfl
      simp [List.dropWhile, this]
  rw [h1, List.rdropWhile_eq_self_iff]
  intro hne
  have := hl (s.getLast hne) (List.getLast?_eq_getLast _ hne)
  simp [this]

/-- The whitespace passes (collapse, then trim) leave a sanitized text
unchanged. -/
theorem whitespace_passes_fixed (x : List Char) :
    TrimSpace (ReplaceAllString whitespaceRegex (cleanChars x) [' ']) = cleanChars x := by
  rw [collapse_of_tidy _ (tidy_cleanChars x)]
  exact trimSpace_fixed _ (fun c h => trimSpace_head _ c h) (fun c h => trimSpace_last _ c h)

/-! ## Lemmas on the chapter indexer -/

theorem foldl_manifest_none (items : List epub.Item) (m0 : String → Option epub.Item)
    (k : String) :
    items.foldl (fun manifest item => fun k => if k = item.ID then some item else manifest k)
        m0 k = none ↔ m0 k = none ∧ ∀ item ∈ items, item.ID ≠ k := by
  induction items generalizing m0 with
  | nil => simp
  | cons it its ih =>
    rw [List.foldl_cons, ih]
    by_cases hk : k = it.ID
    · simp [hk]
    · have hk2 : ¬ it.ID = k := fun h => hk h.symm
      simp [hk, hk2]

/-- A key reads as `nil` in the manifest map exactly when no item has that ID. -/
theorem buildManifest_none (items : List epub.Item) (k : String) :
    buildManifest items k = none ↔ ∀ item ∈ items, item.ID ≠ k := by
  unfold buildManifest
  rw [foldl_manifest_none]
  simp

theorem buildManifest_isSome (items : List epub.Item) (k : String) :
    (buildManifest items k).isSome = items.any (fun item => item.ID == k) := by
  cases h : buildManifest items k with
  | none =>
    have := (buildManifest_none items k).mp h
    simp only [Option.isSome_none]
    symm
    rw [Bool.eq_false_iff]
    intro hany
    obtain ⟨item, hmem, hid⟩ := List.any_eq_true.mp hany
    exact this item hmem (by simpa using hid)
  | some v =>
    have hne : ¬ (buildManifest items k = none) := by simp [h]
    rw [buildManifest_none] at hne
    push_neg at hne
    obtain ⟨item, hmem, hid⟩ := hne
    simp only [Option.isSome_some]
    symm
    exact List.any_eq_true.mpr ⟨item, hmem, by simpa using hid⟩

theorem chapterLoop_ids (manifest : String → Option epub.Item) (spine : List epub.Itemref)
    (i : Nat) (chapters : List Chapter) :
    (chapterLoop manifest i spine chapters).map Chapter.ID =
      chapters.map Chapter.ID ++
        (spine.map epub.Itemref.IDREF).filter (fun idref => (manifest idref).isSome) := by
  induction spine generalizing i chapters with
  | nil => simp [chapterLoop]
  | cons r rs ih =>
    cases h : manifest r.IDREF with
    | none => simp [chapterLoop, h, ih]
    | some v => simp [chapterLoop, h, ih]

/-! ## Lemmas on the format string -/

theorem Sprintf_cons_plain (c : Char) (hc : c ≠ '%') (f : List Char) (args : List Arg) :
    Sprintf (c :: f) args = c :: Sprintf f args := by
  rw [Sprintf] <;> intros <;> simp_all

theorem Sprintf_plain (p : List Char) (hp : '%' ∉ p) (f : List Char) (args : List Arg) :
    Sprintf (p ++ f) args = p ++ Sprintf f args := by
  induction p with
  | nil => rfl
  | cons c cs ih =>
    have hc : c ≠ '%' := fun h => hp (by simp [h])
    have hcs : '%' ∉ cs := fun h => hp (List.mem_cons_of_mem _ h)
    rw [List.cons_append, Sprintf_cons_plain c hc, ih hcs, List.cons_append]

theorem Sprintf_plain_end (p : List Char) (hp : '%' ∉ p) (args : List Arg) :
    Sprintf p args = p := by
  have h := Sprintf_plain p hp [] args
  simpa [Sprintf] using h

theorem Sprintf_verb_s (s : String) (f : List Char) (args : List Arg) :
    Sprintf ("%s".data ++ f) (Arg.str s :: args) = s.data ++ Sprintf f args := rfl

theorem Sprintf_verb_percent (f : List Char) (args : List Arg) :
    Sprintf ("%%".data ++ f) args = "%".data ++ Sprintf f args := rfl

theorem shellHead_plain : '%' ∉ shellHead.data := by
  simp only [shellHead, String.data_append, List.mem_append, not_or]
  repeat' constructor
  all_goals decide

theorem styleTop_plain : '%' ∉ styleTop.data := by
  simp only [styleTop, String.data_append, List.mem_append, not_or]
  repeat' constructor
  all_goals decide

theorem styleRest_plain : '%' ∉ styleRest.data := by
  simp only [styleRest, String.data_append, List.mem_append, not_or]
  repeat' constructor
  all_goals decide

theorem shellTail_plain : '%' ∉ shellTail.data := by
  simp only [shellTail, String.data_append, List.mem_append, not_or]
  repeat' constructor
  all_goals decide

theorem sprintf_mobileTemplate (t c : String) :
    Sprintf mobileTemplate.data [Arg.str t, Arg.str c] =
      shellHead.data ++ (t.data ++ (shellMid.data ++ (c.data ++ shellTail.data))) := by
  simp only [mobileTemplate, shellMid, String.data_append, List.append_assoc]
  rw [Sprintf_plain _ shellHead_plain, Sprintf_verb_s, Sprintf_plain _ styleTop_plain,
    Sprintf_verb_percent, Sprintf_plain _ styleRest_plain, Sprintf_verb_s,
    Sprintf_plain_end _ shellTail_plain]

theorem shellHead_noH : 'H' ∉ shellHead.data := by
  simp only [shellHead, String.data_append, List.mem_append, not_or]
  repeat' constructor
  all_goals decide

theorem shellMid_noH : 'H' ∉ shellMid.data := by
  simp only [shellMid, styleTop, styleRest, String.data_append, List.mem_append, not_or]
  repeat' constructor
  all_goals decide

theorem shellTail_noH : 'H' ∉ shellTail.data := by
  simp only [shellTail, String.data_append, List.mem_append, not_or]
  repeat' constructor
  all_goals decide

/-- A shell around a title and a content without the letter `H` does not
contain the paragraph `<p>Hello</p>`. -/
theorem wrap_lacks_paragraph (e : Reader) (content : String)
    (ht : 'H' ∉ e.metadata.Title.data) (hc : 'H' ∉ content.data) :
    ¬ "<p>Hello</p>".data <:+: (wrapForMobile e content).data := by
  intro hinf
  have hmem : 'H' ∈ (wrapForMobile e content).data :=
    hinf.subset (by decide)
  have hd : (wrapForMobile e content).data =
      shellHead.data ++ (e.metadata.Title.data ++ (shellMid.data ++
        (content.data ++ shellTail.data))) := sprintf_mobileTemplate _ _
  rw [hd] at hmem
  simp only [List.mem_append] at hmem
  rcases hmem with h | h | h | h | h
  · exact shellHead_noH h
  · exact ht h
  · exact shellMid_noH h
  · exact hc h
  · exact shellTail_noH h

/-! ## Body extraction -/

/-- C1 (disproved by the code on the sample chapter): on the tree parsed from
`<html><body><p>Hello<script>evil()</script></p></body></html>`, whenever the
serializer renders the empty `head` element to a non-empty text,
`extractBodyContent` returns the serialization of `head`, not that of the body
element, and `processHTML` wraps the sanitized serialization of `head`. -/
theorem extractBodyContent_sample_returns_head (lib : HtmlLib) (e : Reader) (rawHTML : String)
    (hparse : lib.Parse rawHTML = Except.ok sampleDoc)
    (hhead : lib.renderNode sampleHead ≠ "") :
    extractBodyContent lib.renderNode sampleDoc = lib.renderNode sampleHead ∧
      processHTML lib e rawHTML =
        (wrapForMobile e (cleanHTML (lib.renderNode sampleHead)), none) := by
  have h1 : extractBodyContent lib.renderNode sampleDoc = lib.renderNode sampleHead := by
    have hh : lib.renderNode (Node.mk NodeType.ElementNode "head" [] []) ≠ "" := hhead
    simp [sampleDoc, sampleHead, sampleBody, elem, extractBodyContent,
      extractBodyContentChildren, hh]
  refine ⟨h1, ?_⟩
  simp only [processHTML, hparse, h1]

/-- Instance of C1 with the serializer `renderPlain`: the extracted text is
`<head></head>` while the body serializes to the paragraph markup; the
chapter output of `processHTML` does not contain `<p>Hello</p>`. -/
theorem extractBodyContent_sample_returns_head_witness :
    (sampleLib.Parse sampleMarkup = Except.ok sampleDoc ∧
      sampleLib.renderNode sampleHead ≠ "") ∧
    (extractBodyContent sampleLib.renderNode sampleDoc = sampleLib.renderNode sampleHead ∧
      processHTML sampleLib sampleReader sampleMarkup =
        (wrapForMobile sampleReader (cleanHTML (sampleLib.renderNode sampleHead)), none)) ∧
    sampleLib.renderNode sampleHead = "<head></head>" ∧
    sampleLib.renderNode sampleBody = "<body><p>Hello<script>evil()</script></p></body>" ∧
    cleanHTML (extractBodyContent sampleLib.renderNode sampleDoc) = "<head></head>" ∧
    ¬ "<p>Hello</p>".data <:+: (processHTML sampleLib sampleReader sampleMarkup).1.data :=
  ⟨⟨rfl, by decide⟩,
    extractBodyContent_sample_returns_head sampleLib sampleReader sampleMarkup rfl (by decide),
    by decide, by decide, by decide,
    wrap_lacks_paragraph sampleReader "<head></head>" (by decide) (by decide)⟩

/-! ## Sanitizer -/

/-- C2 (disproved by the code): a script element, a style element and a
comment whose body spans several lines are not removed by `cleanHTML`; the
whitespace pass then joins their lines, and the output holds a script element
that the script pattern itself matches in full. -/
theorem cleanHTML_keeps_multiline :
    cleanHTML "<script>\nevil()\n</script>" = "<script> evil() </script>" ∧
    matchLen scriptRegex (cleanHTML "<script>\nevil()\n</script>").data = some 25 ∧
    cleanHTML "<p>a</p><style>\np \x7b color: red \x7d\n</style>" =
      "<p>a</p><style> p \x7b color: red \x7d </style>" ∧
    cleanHTML "<!-- note\nmore -->text" = "<!-- note more -->text" := by
  decide

/-- C7 (counterexample): removing the inner script element of
`<scr<script></script>ipt>evil()</script>` leaves a script element, which a
second application of `cleanHTML` removes. -/
theorem cleanHTML_not_idempotent :
    cleanHTML "<scr<script></script>ipt>evil()</script>" = "<script>evil()</script>" ∧
    cleanHTML (cleanHTML "<scr<script></script>ipt>evil()</script>") = "" ∧
    cleanHTML (cleanHTML "<scr<script></script>ipt>evil()</script>") ≠
      cleanHTML "<scr<script></script>ipt>evil()</script>" := by
  decide

/-- C7 (amended): when the three removal passes leave the sanitized text
`cleanHTML x` unchanged, a second application of `cleanHTML` returns it
unchanged: sanitized text is a fixed point of the whitespace passes. -/
theorem cleanHTML_idempotent_of_clean (x : String)
    (h : removalPasses (cleanHTML x).data = (cleanHTML x).data) :
    cleanHTML (cleanHTML x) = cleanHTML x := by
  apply String.ext
  have h2 : removalPasses (cleanChars x.data) = cleanChars x.data := h
  show cleanChars (cleanChars x.data) = cleanChars x.data
  have h3 : cleanChars (cleanChars x.data) =
      TrimSpace (ReplaceAllString whitespaceRegex (removalPasses (cleanChars x.data)) [' ']) :=
    rfl
  rw [h3, h2]
  exact whitespace_passes_fixed x.data

/-- Instance of the amended C7 on a text with a script element and a run of
spaces. -/
theorem cleanHTML_idempotent_of_clean_witness :
    removalPasses (cleanHTML "<p>Hello<script>evil()</script>  world</p>").data =
        (cleanHTML "<p>Hello<script>evil()</script>  world</p>").data ∧
      cleanHTML (cleanHTML "<p>Hello<script>evil()</script>  world</p>") =
        cleanHTML "<p>Hello<script>evil()</script>  world</p>" :=
  ⟨by decide, cleanHTML_idempotent_of_clean _ (by decide)⟩

/-- C8: the output of `cleanHTML` holds no tab, newline, carriage return or
form feed and no two adjacent spaces, and neither its first nor its last
character is white space. -/
theorem cleanHTML_whitespace (x : String) :
    ('\t' ∉ (cleanHTML x).data ∧ '\n' ∉ (cleanHTML x).data ∧
      '\r' ∉ (cleanHTML x).data ∧ Char.ofNat 0x0C ∉ (cleanHTML x).data) ∧
    ¬ [' ', ' '] <:+: (cleanHTML x).data ∧
    (∀ c, (cleanHTML x).data.head? = some c → isSpace c = false) ∧
    (∀ c, (cleanHTML x).data.getLast? = some c → isSpace c = false) := by
  have ht : tidy (cleanChars x.data) = true := tidy_cleanChars x.data
  have hd : (cleanHTML x).data = cleanChars x.data := rfl
  rw [hd]
  refine ⟨⟨?_, ?_, ?_, ?_⟩, tidy_no_double_space _ ht, ?_, ?_⟩
  · intro hm
    have := tidy_mem _ ht _ hm (by decide)
    exact absurd this (by decide)
  · intro hm
    have := tidy_mem _ ht _ hm (by decide)
    exact absurd this (by decide)
  · intro hm
    have := tidy_mem _ ht _ hm (by decide)
    exact absurd this (by decide)
  · intro hm
    have := tidy_mem _ ht _ hm (by decide)
    exact absurd this (by decide)
  · intro c h
    exact trimSpace_head _ c h
  · intro c h
    exact trimSpace_last _ c h

/-- Instance of C8 on a text with tabs, newlines, runs of spaces and white
space at both ends. -/
theorem cleanHTML_whitespace_witness :
    cleanHTML " \t<p>a \n\r b</p>\x0c  " = "<p>a b</p>" ∧
    (cleanHTML " \t<p>a \n\r b</p>\x0c  ").data.head? = some '<' ∧
    (cleanHTML " \t<p>a \n\r b</p>\x0c  ").data.getLast? = some '>' ∧
    isSpace '<' = false ∧ isSpace '>' = false ∧
    ¬ [' ', ' '] <:+: (cleanHTML " \t<p>a \n\r b</p>\x0c  ").data :=
  ⟨by decide, by decide, by decide,
    (cleanHTML_whitespace " \t<p>a \n\r b</p>\x0c  ").2.2.1 _ (by decide),
    (cleanHTML_whitespace " \t<p>a \n\r b</p>\x0c  ").2.2.2 _ (by decide),
    (cleanHTML_whitespace " \t<p>a \n\r b</p>\x0c  ").2.1⟩

/-! ## Chapter indexer -/

/-- C3 (disproved by the code): in the sample book the spine is
`[ch1, ch2, ch3]` and `ch2` has no manifest item; the chapter list has two
entries and the second one carries `Index` 2, its spine position, not its
position 1 in the list. -/
theorem extractChapters_index_is_spine_position :
    (extractChapters sampleFresh).2 = none ∧
    (extractChapters sampleFresh).1.chapters.map Chapter.ID = ["ch1", "ch3"] ∧
    (extractChapters sampleFresh).1.chapters.map Chapter.Index = [0, 2] ∧
    ((extractChapters sampleFresh).1.chapters.get? 1).map Chapter.Index ≠ some 1 := by
  decide

/-- C4 (disproved by the code): in the sample book, where the second spine
entry is skipped, the titles of the two chapters are `Chapter 1` and
`Chapter 3`: the title numbers the spine position, so the list has a gap and
its second title is not `Chapter 2`. -/
theorem extractChapters_title_is_spine_position :
    (extractChapters sampleFresh).1.chapters.map Chapter.Title = ["Chapter 1", "Chapter 3"] ∧
    ((extractChapters sampleFresh).1.chapters.get? 1).map Chapter.Title ≠ some "Chapter 2" := by
  decide

/-- C5: when the container has a root file, `extractChapters` succeeds, the
chapter IDs are, in spine order, exactly the spine idrefs that are the ID of
some manifest item, and `GetChapterCount` is the number of those idrefs. -/
theorem extractChapters_ids (e : Reader) (rootfile : epub.Rootfile) (rest : List epub.Rootfile)
    (h : e.reader.Rootfiles = rootfile :: rest) :
    (extractChapters e).2 = none ∧
    (extractChapters e).1.chapters.map Chapter.ID =
      (rootfile.Spine.Itemrefs.map epub.Itemref.IDREF).filter
        (fun idref => rootfile.Manifest.Items.any (fun item => item.ID == idref)) ∧
    GetChapterCount (extractChapters e).1 =
      (((rootfile.Spine.Itemrefs.map epub.Itemref.IDREF).filter
        (fun idref => rootfile.Manifest.Items.any (fun item => item.ID == idref))).length : Int) := by
  have hids : (extractChapters e).1.chapters.map Chapter.ID =
      (rootfile.Spine.Itemrefs.map epub.Itemref.IDREF).filter
        (fun idref => rootfile.Manifest.Items.any (fun item => item.ID == idref)) := by
    simp only [extractChapters, h, chapterLoop_ids, List.map_nil, List.nil_append]
    apply List.filter_congr
    intro idref _
    exact buildManifest_isSome _ _
  refine ⟨by simp [extractChapters, h], hids, ?_⟩
  unfold GetChapterCount
  rw [← hids, List.length_map]

/-- Instance of C5 on the sample book: of the spine `[ch1, ch2, ch3]` the
entries `ch1` and `ch3` resolve. -/
theorem extractChapters_ids_witness :
    sampleFresh.reader.Rootfiles = sampleRootfile :: [] ∧
    (extractChapters sampleFresh).1.chapters.map Chapter.ID = ["ch1", "ch3"] ∧
    GetChapterCount (extractChapters sampleFresh).1 = 2 :=
  ⟨rfl,
    (extractChapters_ids sampleFresh sampleRootfile [] rfl).2.1.trans (by decide),
    (extractChapters_ids sampleFresh sampleRootfile [] rfl).2.2.trans (by decide)⟩

/-! ## Metadata -/

theorem extractMetadata_ok (e e1 : Reader) (h : extractMetadata e = (e1, none)) :
    e1.metadata.Title ≠ "" ∧ e1.metadata.Author ≠ "" := by
  unfold extractMetadata at h
  cases hr : e.reader.Rootfiles with
  | nil => simp [hr] at h
  | cons rootfile rest =>
    simp only [hr, Prod.mk.injEq, and_true] at h
    subst h
    by_cases ht : rootfile.Metadata.Title = "" <;>
      by_cases ha : rootfile.Metadata.Creator = "" <;> simp [ht, ha]

theorem extractChapters_metadata (e : Reader) :
    (extractChapters e).1.metadata = e.metadata := by
  unfold extractChapters
  cases e.reader.Rootfiles <;> rfl

/-- C9: when the container has a root file, `extractMetadata` succeeds with
`Title` and `Author` equal to the source title and creator, or to
`Unknown Title` and `Unknown Author` when those are empty, and with the other
four fields copied; the title and author of a book returned by `OpenEpub` are
never empty. -/
theorem extractMetadata_defaults :
    (∀ (e : Reader) (rootfile : epub.Rootfile) (rest : List epub.Rootfile),
      e.reader.Rootfiles = rootfile :: rest →
      (extractMetadata e).2 = none ∧
      (extractMetadata e).1.metadata.Title =
        (if rootfile.Metadata.Title = "" then "Unknown Title" else rootfile.Metadata.Title) ∧
      (extractMetadata e).1.metadata.Author =
        (if rootfile.Metadata.Creator = "" then "Unknown Author"
          else rootfile.Metadata.Creator) ∧
      (extractMetadata e).1.metadata.Title ≠ "" ∧
      (extractMetadata e).1.metadata.Author ≠ "" ∧
      (extractMetadata e).1.metadata.Description = rootfile.Metadata.Description ∧
      (extractMetadata e).1.metadata.Publisher = rootfile.Metadata.Publisher ∧
      (extractMetadata e).1.metadata.Language = rootfile.Metadata.Language ∧
      (extractMetadata e).1.metadata.Identifier = rootfile.Metadata.Identifier) ∧
    (∀ (NewReader : List Nat → Except String epub.Reader) (data : List Nat) (e : Reader),
      (OpenEpub NewReader data).1 = some e →
      e.metadata.Title ≠ "" ∧ e.metadata.Author ≠ "") := by
  constructor
  · intro e rootfile rest h
    by_cases ht : rootfile.Metadata.Title = "" <;>
      by_cases ha : rootfile.Metadata.Creator = "" <;>
      simp [extractMetadata, h, ht, ha]
  · intro NewReader data e h
    unfold OpenEpub at h
    cases hN : NewReader data with
    | error err => simp [hN] at h
    | ok epubReader =>
      simp only [hN] at h
      generalize hM : extractMetadata _ = r1 at h
      rcases r1 with ⟨e1, _ | err⟩
      · simp only at h
        generalize hC : extractChapters e1 = r2 at h
        rcases r2 with ⟨e2, _ | err⟩
        · simp only [Option.some.injEq] at h
          subst h
          have h1 := extractMetadata_ok _ _ hM
          have h2 := extractChapters_metadata e1
          rw [hC] at h2
          simp only at h2
          rw [h2]
          exact h1
        · simp at h
      · simp at h

/-- Instance of C9 on the sample book, whose package has the title `Sample`
and an empty creator. -/
theorem extractMetadata_defaults_witness :
    sampleFresh.reader.Rootfiles = sampleRootfile :: [] ∧
    (extractMetadata sampleFresh).1.metadata.Title = "Sample" ∧
    (extractMetadata sampleFresh).1.metadata.Author = "Unknown Author" ∧
    (OpenEpub (fun _ => Except.ok sampleArchive) []).1.map Reader.metadata =
      some ⟨"Sample", "Unknown Author", "", "", "en", "urn:sample"⟩ :=
  ⟨rfl,
    (extractMetadata_defaults.1 sampleFresh sampleRootfile [] rfl).2.1.trans (by decide),
    (extractMetadata_defaults.1 sampleFresh sampleRootfile [] rfl).2.2.1.trans (by decide),
    by decide⟩


/-! ## Content fetcher -/

theorem ne_of_head_ne (a b : String) (ca cb : Char) (ha : a.data.head? = some ca)
    (hb : b.data.head? = some cb) (hne : ca ≠ cb) : a ≠ b := by
  intro h
  rw [h, hb] at ha
  exact hne (Option.some.inj ha).symm

/-- The out-of-range message, as printed by `%d`. -/
theorem outOfRange_msg (i : Int) :
    Errorf "chapter index %d out of range" [Arg.int i] =
      "chapter index " ++ toString i ++ " out of range" := rfl

theorem outOfRange_head (i : Int) :
    (Errorf "chapter index %d out of range" [Arg.int i]).data.head? = some 'c' := rfl

/-- In range, `GetChapterContent` returns no error or one whose message starts
with `n`, `i` or `f`. -/
theorem GetChapterContent_err_head (e : Reader) (i : Int)
    (h : ¬ (i < 0 ∨ i ≥ e.chapters.length)) (m : String)
    (hm : (GetChapterContent e i).err = some m) :
    m.data.head? = some 'n' ∨ m.data.head? = some 'i' ∨ m.data.head? = some 'f' := by
  unfold GetChapterContent at hm
  rw [dif_neg h] at hm
  simp only at hm
  split at hm
  · simp only [Option.some.injEq] at hm
    subst hm
    exact Or.inl rfl
  · split at hm
    · simp only [Option.some.injEq] at hm
      subst hm
      exact Or.inr (Or.inl rfl)
    · split at hm
      · simp only [Option.some.injEq] at hm
        subst hm
        exact Or.inr (Or.inr rfl)
      · simp only [Option.some.injEq] at hm
        subst hm
        exact Or.inr (Or.inr rfl)
      · simp at hm

/-- C6: for an index below 0 or at least the chapter count, `GetChapterContent`
and `GetChapterHTML` return the empty string with the error
`chapter index i out of range` and open no archive entry; for an index in range
neither returns that error. -/
theorem chapter_index_out_of_range (lib : HtmlLib) (e : Reader) (i : Int) :
    ((i < 0 ∨ i ≥ GetChapterCount e) →
      GetChapterContent e i =
        ⟨"", some ("chapter index " ++ toString i ++ " out of range"), []⟩ ∧
      GetChapterHTML lib e i =
        ⟨"", some ("chapter index " ++ toString i ++ " out of range"), []⟩) ∧
    ((0 ≤ i ∧ i < GetChapterCount e) →
      (GetChapterContent e i).err ≠ some ("chapter index " ++ toString i ++ " out of range") ∧
      (GetChapterHTML lib e i).err ≠
        some ("chapter index " ++ toString i ++ " out of range")) := by
  unfold GetChapterCount
  constructor
  · intro h
    constructor
    · unfold GetChapterContent
      rw [dif_pos h, outOfRange_msg]
    · unfold GetChapterHTML
      rw [if_pos h, outOfRange_msg]
  · intro h
    have hin : ¬ (i < 0 ∨ i ≥ (e.chapters.length : Int)) := by omega
    rw [← outOfRange_msg]
    have hc : (GetChapterContent e i).err ≠
        some (Errorf "chapter index %d out of range" [Arg.int i]) := by
      intro hm
      rcases GetChapterContent_err_head e i hin _ hm with h1 | h1 | h1 <;>
        rw [outOfRange_head] at h1 <;> exact absurd h1 (by decide)
    refine ⟨hc, ?_⟩
    unfold GetChapterHTML
    rw [if_neg hin]
    simp only
    split
    · intro hm
      simp only [Option.some.injEq] at hm
      refine ne_of_head_ne _ _ 'f' 'c' ?_ (outOfRange_head i) (by decide) hm
      rfl
    · split
      · intro hm
        simp only [Option.some.injEq] at hm
        refine ne_of_head_ne _ _ 'f' 'c' ?_ (outOfRange_head i) (by decide) hm
        rfl
      · simp

/-- Instance of C6 on the sample book, which has two chapters: the indices -1
and 2 are rejected without opening an entry, the index 0 is served. -/
theorem chapter_index_out_of_range_witness :
    GetChapterCount sampleReader = 2 ∧
    (GetChapterContent sampleReader (-1) = ⟨"", some "chapter index -1 out of range", []⟩ ∧
      GetChapterHTML sampleLib sampleReader (-1) =
        ⟨"", some "chapter index -1 out of range", []⟩) ∧
    (GetChapterContent sampleReader 2 = ⟨"", some "chapter index 2 out of range", []⟩ ∧
      GetChapterHTML sampleLib sampleReader 2 =
        ⟨"", some "chapter index 2 out of range", []⟩) ∧
    ((GetChapterContent sampleReader 0).err ≠ some "chapter index 0 out of range" ∧
      (GetChapterHTML sampleLib sampleReader 0).err ≠ some "chapter index 0 out of range") :=
  ⟨by decide,
    (chapter_index_out_of_range sampleLib sampleReader (-1)).1 (by decide),
    (chapter_index_out_of_range sampleLib sampleReader 2).1 (by decide),
    (chapter_index_out_of_range sampleLib sampleReader 0).2 (by decide)⟩

/-! ## Mobile presenter: the claim -/

/-- C10: `wrapForMobile` is the fixed shell with the book title and the
content inserted verbatim: for every title and content the result is
`shellHead ++ title ++ shellMid ++ content ++ shellTail`. -/
theorem wrapForMobile_template (e : Reader) (content : String) :
    wrapForMobile e content =
      shellHead ++ e.metadata.Title ++ shellMid ++ content ++ shellTail := by
  apply String.ext
  simp only [String.data_append, List.append_assoc]
  exact sprintf_mobileTemplate _ _

/-! ## Body extraction without a body element -/

/-- C11 (disproved by the code): on the tree of a frameset document, which has
no body element, whenever the serializer renders the empty `head` element to a
non-empty text, `extractBodyContent` applied to the root returns the
serialization of `head`, not that of the root. -/
theorem extractBodyContent_frameset_returns_head (renderNode : Node → String)
    (hhead : renderNode sampleHead ≠ "") :
    extractBodyContent renderNode sampleFrameset = renderNode sampleHead := by
  have hh : renderNode (Node.mk NodeType.ElementNode "head" [] []) ≠ "" := hhead
  simp [sampleFrameset, sampleHead, elem, extractBodyContent, extractBodyContentChildren, hh]

/-- Instance of C11 with the serializer `renderPlain`: the extracted text is
`<head></head>`, the serialization of the root is the whole document. -/
theorem extractBodyContent_frameset_returns_head_witness :
    renderPlain sampleHead ≠ "" ∧
    extractBodyContent renderPlain sampleFrameset = renderPlain sampleHead ∧
    renderPlain sampleHead = "<head></head>" ∧
    renderPlain sampleFrameset = "<html><head></head><frameset></frameset></html>" ∧
    extractBodyContent renderPlain sampleFrameset ≠ renderPlain sampleFrameset :=
  ⟨by decide, extractBodyContent_frameset_returns_head renderPlain (by decide),
    by decide, by decide, by decide⟩

/-! ## Navigation -/

/-- C12 (disproved by the code): `FindChapterByTitle` compares titles exactly;
in the sample book the title `Chapter 1` is found at position 0, the titles
`chapter 1` and `CHAPTER 1` are not found. -/
theorem FindChapterByTitle_is_case_sensitive :
    FindChapterByTitle sampleReader "Chapter 1" = 0 ∧
    FindChapterByTitle sampleReader "chapter 1" = -1 ∧
    FindChapterByTitle sampleReader "CHAPTER 1" = -1 := by
  decide

/-- C16 (disproved by the code): `GetBookProgress` has no lower clamp; in the
sample book of two chapters the progress at chapter -1 is -50, below 0, while
the upper clamp holds (chapter 5 gives 100). The values -1, 2, -1/2, 100 and
-50 are exact in `float64`. -/
theorem GetBookProgress_negative :
    sampleReader.chapters.length = 2 ∧
    GetBookProgress sampleReader (-1) = -50 ∧
    GetBookProgress sampleReader (-1) < 0 ∧
    GetBookProgress sampleReader 5 = 100 ∧
    Wrapper.GetReadingProgress (some sampleReader) (-1) = -50 := by
  have hlen : sampleReader.chapters.length = 2 := by decide
  refine ⟨hlen, ?_, ?_, ?_, ?_⟩ <;>
    simp only [Wrapper.GetReadingProgress, GetBookProgress, hlen] <;> norm_num

/-! ## Session -/

/-- C13: when `OpenEpub` fails, `OpenEpubFromBytes` returns its error and the
session slot keeps its value; with no book loaded the wrapper's
`GetChapterCount` is 0 and `GetBookInfo` is the non-empty message
`{"error": "no book loaded"}`. -/
theorem session_without_book (NewReader : List Nat → Except String epub.Reader)
    (data : List Nat) (globalReader : Option Reader) (err : String)
    (Marshal : BookMetadata → Int → String)
    (hfail : (OpenEpub NewReader data).2 = some err) :
    Wrapper.OpenEpubFromBytes NewReader data globalReader = (globalReader, some err) ∧
    Wrapper.GetChapterCount none = 0 ∧
    Wrapper.GetBookInfo Marshal none = "\x7b\"error\": \"no book loaded\"\x7d" ∧
    Wrapper.GetBookInfo Marshal none ≠ "" := by
  have hinfo : Wrapper.GetBookInfo Marshal none = "\x7b\"error\": \"no book loaded\"\x7d" :=
    rfl
  refine ⟨?_, rfl, hinfo, by rw [hinfo]; decide⟩
  unfold Wrapper.OpenEpubFromBytes
  rcases hO : OpenEpub NewReader data with ⟨r, _ | err2⟩
  · rw [hO] at hfail
    cases hfail
  · rw [hO] at hfail
    simp only [Option.some.injEq] at hfail
    subst hfail
    rfl

/-- Instance of C13, the sequence of the package test: opening empty data
fails, the empty slot stays empty, the book info is not empty and the chapter
count is 0; a loaded slot is kept as well. -/
theorem session_without_book_witness :
    (OpenEpub sampleNewReader []).2 =
      some "failed to create epub reader: zip: not a valid zip file" ∧
    (Wrapper.OpenEpubFromBytes sampleNewReader [] none =
        (none, some "failed to create epub reader: zip: not a valid zip file") ∧
      Wrapper.GetChapterCount none = 0 ∧
      Wrapper.GetBookInfo (fun _ _ => "") none = "\x7b\"error\": \"no book loaded\"\x7d" ∧
      Wrapper.GetBookInfo (fun _ _ => "") none ≠ "") ∧
    (Wrapper.OpenEpubFromBytes sampleNewReader [] (some sampleReader)).1.map Reader.chapters =
      some sampleReader.chapters :=
  ⟨by decide,
    session_without_book sampleNewReader [] none
      "failed to create epub reader: zip: not a valid zip file" (fun _ _ => "") (by decide),
    congrArg (fun r => r.1.map Reader.chapters)
      (session_without_book sampleNewReader [] (some sampleReader)
        "failed to create epub reader: zip: not a valid zip file" (fun _ _ => "")
        (by decide)).1⟩

/-! ## Opening -/

theorem extractMetadata_reader (e : Reader) : (extractMetadata e).1.reader = e.reader := by
  unfold extractMetadata
  cases e.reader.Rootfiles with
  | nil => rfl
  | cons rootfile rest =>
    by_cases ht : rootfile.Metadata.Title = "" <;>
      by_cases ha : rootfile.Metadata.Creator = "" <;> simp [ht, ha]

theorem extractMetadata_err (e : Reader) (rootfile : epub.Rootfile)
    (rest : List epub.Rootfile) (h : e.reader.Rootfiles = rootfile :: rest) :
    (extractMetadata e).2 = none := by
  simp [extractMetadata, h]

theorem extractChapters_err (e : Reader) (rootfile : epub.Rootfile)
    (rest : List epub.Rootfile) (h : e.reader.Rootfiles = rootfile :: rest) :
    (extractChapters e).2 = none := by
  simp [extractChapters, h]

/-- C14: when the archive has no root file, `OpenEpub` returns no reader and
the error `no rootfiles found` wrapped by `failed to extract metadata`; when it
has one, neither `extractMetadata` nor `extractChapters` fails and `OpenEpub`
returns a reader without error. -/
theorem OpenEpub_rootfiles :
    (∀ (NewReader : List Nat → Except String epub.Reader) (data : List Nat)
        (archive : epub.Reader),
      NewReader data = Except.ok archive → archive.Rootfiles = [] →
      OpenEpub NewReader data =
        (none, some "failed to extract metadata: no rootfiles found")) ∧
    (∀ (e : Reader) (rootfile : epub.Rootfile) (rest : List epub.Rootfile),
      e.reader.Rootfiles = rootfile :: rest →
      (extractMetadata e).2 = none ∧ (extractChapters e).2 = none) ∧
    (∀ (NewReader : List Nat → Except String epub.Reader) (data : List Nat)
        (archive : epub.Reader) (rootfile : epub.Rootfile) (rest : List epub.Rootfile),
      NewReader data = Except.ok archive → archive.Rootfiles = rootfile :: rest →
      (OpenEpub NewReader data).2 = none ∧ (OpenEpub NewReader data).1.isSome = true) := by
  refine ⟨?_, ?_, ?_⟩
  · intro NewReader data archive hN hR
    simp only [OpenEpub, hN, extractMetadata, hR]
    rfl
  · intro e rootfile rest h
    exact ⟨extractMetadata_err e rootfile rest h, extractChapters_err e rootfile rest h⟩
  · intro NewReader data archive rootfile rest hN hR
    unfold OpenEpub
    simp only [hN]
    generalize he0 : Reader.mk archive [] ⟨"", "", "", "", "", ""⟩ data = e0
    have hr0 : e0.reader.Rootfiles = rootfile :: rest := by
      rw [← he0]
      exact hR
    have hm := extractMetadata_err e0 rootfile rest hr0
    have hmr := extractMetadata_reader e0
    rcases hM : extractMetadata e0 with ⟨e1, r1⟩
    rw [hM] at hm hmr
    simp only at hm hmr
    subst hm
    have hr1 : e1.reader.Rootfiles = rootfile :: rest := by
      rw [hmr]
      exact hr0
    have hc := extractChapters_err e1 rootfile rest hr1
    rcases hC : extractChapters e1 with ⟨e2, r2⟩
    rw [hC] at hc
    simp only at hc
    subst hc
    simp [hC]

/-- Instance of C14: an archive without root file is refused, the sample
archive is opened. -/
theorem OpenEpub_rootfiles_witness :
    OpenEpub (fun _ => Except.ok emptyArchive) [] =
      (none, some "failed to extract metadata: no rootfiles found") ∧
    ((extractMetadata sampleFresh).2 = none ∧ (extractChapters sampleFresh).2 = none) ∧
    ((OpenEpub sampleNewReader [80, 75]).2 = none ∧
      (OpenEpub sampleNewReader [80, 75]).1.isSome = true) :=
  ⟨OpenEpub_rootfiles.1 (fun _ => Except.ok emptyArchive) [] emptyArchive rfl rfl,
    OpenEpub_rootfiles.2.1 sampleFresh sampleRootfile [] rfl,
    OpenEpub_rootfiles.2.2 sampleNewReader [80, 75] sampleArchive sampleRootfile [] rfl rfl⟩

/-! ## Content fetcher and manifest -/

/-- C17 (disproved by the code): with two manifest items of ID `ch1`, the
chapter built by `extractChapters` has the path of the last one,
`text/b.xhtml`, while `GetChapterContent` opens the first one,
`text/a.xhtml`. -/
theorem GetChapterContent_opens_first_duplicate :
    (OpenEpub dupNewReader [80, 75]).2 = none ∧
    (OpenEpub dupNewReader [80, 75]).1.map (fun e => e.chapters.map Chapter.Filepath) =
      some ["text/b.xhtml"] ∧
    (OpenEpub dupNewReader [80, 75]).1.map
        (fun e => (GetChapterContent e 0).opened.map epub.Item.HREF) =
      some ["text/a.xhtml"] ∧
    (OpenEpub dupNewReader [80, 75]).1.map (fun e => (GetChapterContent e 0).value) =
      some "text/a.xhtml" := by
  decide

/-! ## Lemmas on decimal printing -/

theorem digitChar_value (k : Nat) (hk : k < 10) : (Nat.digitChar k).toNat - 48 = k := by
  interval_cases k <;> rfl

theorem toDigitsCore_value (fuel : Nat) :
    ∀ (n : Nat) (ds : List Char), n < fuel →
      digitsValue (Nat.toDigitsCore 10 fuel n ds) 0 = digitsValue ds n := by
  induction fuel with
  | zero => intro n ds h; omega
  | succ fuel ih =>
    intro n ds h
    unfold Nat.toDigitsCore
    by_cases h0 : n / 10 = 0
    · simp only [h0, if_true]
      have hn : n < 10 := by omega
      simp [digitsValue, Nat.mod_eq_of_lt hn, digitChar_value n hn]
    · simp only [h0, if_false]
      rw [ih (n / 10) _ (by omega)]
      simp only [digitsValue, List.foldl_cons, digitChar_value _ (Nat.mod_lt n (by decide))]
      congr 1
      omega

/-- The decimal representation determines the number. -/
theorem nat_repr_injective (a b : Nat) (h : Nat.repr a = Nat.repr b) : a = b := by
  have h2 : Nat.toDigits 10 a = Nat.toDigits 10 b := by
    have := congrArg String.data h
    simpa [Nat.repr, List.asString] using this
  have ha := toDigitsCore_value (a + 1) a [] (by omega)
  have hb := toDigitsCore_value (b + 1) b [] (by omega)
  unfold Nat.toDigits at h2
  rw [h2, hb] at ha
  simpa [digitsValue] using ha.symm

/-- Title given to the chapter found at spine position `k`. -/
theorem title_eq (k : Nat) :
    Errorf "Chapter %d" [Arg.int ((k : Int) + 1)] = "Chapter " ++ Nat.repr (k + 1) := by
  apply String.ext
  have : ((k : Int) + 1) = ((k + 1 : Nat) : Int) := by push_cast; rfl
  rw [this]
  simp [Errorf, Sprintf]
  rfl

theorem title_injective (a b : Nat)
    (h : Errorf "Chapter %d" [Arg.int ((a : Int) + 1)] =
      Errorf "Chapter %d" [Arg.int ((b : Int) + 1)]) : a = b := by
  rw [title_eq, title_eq] at h
  have h2 := congrArg String.data h
  simp only [String.data_append, List.append_cancel_left_eq] at h2
  have h3 : Nat.repr (a + 1) = Nat.repr (b + 1) := String.ext h2
  have := nat_repr_injective _ _ h3
  omega

/-! ## Lemmas on chapter titles and IDs -/

theorem TitlesBelow_mono (n m : Nat) (hnm : n ≤ m) (l : List Chapter)
    (h : TitlesBelow n l) : TitlesBelow m l :=
  ⟨h.1, fun c hc => by
    obtain ⟨k, hk, ht⟩ := h.2 c hc
    exact ⟨k, by omega, ht⟩⟩

theorem chapterLoop_titles (manifest : String → Option epub.Item) (spine : List epub.Itemref) :
    ∀ (i : Nat) (chapters : List Chapter), TitlesBelow i chapters →
      ∃ n, TitlesBelow n (chapterLoop manifest i spine chapters) := by
  induction spine with
  | nil => intro i chapters h; exact ⟨i, h⟩
  | cons r rs ih =>
    intro i chapters h
    cases hm : manifest r.IDREF with
    | none =>
      simp only [chapterLoop, hm]
      exact ih (i + 1) chapters (TitlesBelow_mono i (i + 1) (by omega) _ h)
    | some item =>
      simp only [chapterLoop, hm]
      apply ih (i + 1)
      constructor
      · rw [List.pairwise_append]
        refine ⟨h.1, List.pairwise_singleton _ _, ?_⟩
        intro a ha b hb
        rw [List.mem_singleton] at hb
        subst hb
        obtain ⟨k, hk, ht⟩ := h.2 a ha
        rw [ht]
        intro heq
        have := title_injective k i heq
        omega
      · intro c hc
        rcases List.mem_append.mp hc with hc | hc
        · obtain ⟨k, hk, ht⟩ := h.2 c hc
          exact ⟨k, by omega, ht⟩
        · rw [List.mem_singleton] at hc
          subst hc
          exact ⟨i, by omega, rfl⟩

/-- The titles of the chapters built by `extractChapters` are pairwise
distinct. -/
theorem extractChapters_titles_distinct (e : Reader) (rootfile : epub.Rootfile)
    (rest : List epub.Rootfile) (h : e.reader.Rootfiles = rootfile :: rest) :
    (extractChapters e).1.chapters.Pairwise (fun a b => a.Title ≠ b.Title) := by
  simp only [extractChapters, h]
  obtain ⟨n, hn⟩ := chapterLoop_titles (buildManifest rootfile.Manifest.Items)
    rootfile.Spine.Itemrefs 0 [] ⟨List.Pairwise.nil, fun c hc => by cases hc⟩
  exact hn.1

theorem findTitleLoop_get (l : List Chapter)
    (hl : l.Pairwise (fun a b => a.Title ≠ b.Title)) :
    ∀ (j n : Nat) (hn : n < l.length),
      findTitleLoop (l.get ⟨n, hn⟩).Title j l = ((j + n : Nat) : Int) := by
  induction l with
  | nil => intro j n hn; simp at hn
  | cons c cs ih =>
    intro j n hn
    rw [List.pairwise_cons] at hl
    cases n with
    | zero => simp [findTitleLoop]
    | succ n =>
      have hn2 : n < cs.length := by simpa using hn
      have hne : c.Title ≠ (cs.get ⟨n, hn2⟩).Title := hl.1 _ (List.get_mem cs n hn2)
      simp only [List.get_cons_succ, findTitleLoop, hne, if_false]
      rw [ih hl.2 (j + 1) n hn2]
      congr 1
      omega

theorem chapterLoop_resolved (manifest : String → Option epub.Item)
    (spine : List epub.Itemref) :
    ∀ (i : Nat) (chapters : List Chapter),
      (∀ c ∈ chapters, manifest c.ID ≠ none) →
      ∀ c ∈ chapterLoop manifest i spine chapters, manifest c.ID ≠ none := by
  induction spine with
  | nil => intro i chapters h; exact h
  | cons r rs ih =>
    intro i chapters h
    cases hm : manifest r.IDREF with
    | none =>
      simp only [chapterLoop, hm]
      exact ih (i + 1) chapters h
    | some item =>
      simp only [chapterLoop, hm]
      apply ih (i + 1)
      intro c hc
      rcases List.mem_append.mp hc with hc | hc
      · exact h c hc
      · rw [List.mem_singleton] at hc
        subst hc
        simp [hm]

theorem findItem_of_manifest (items : List epub.Item) (k : String)
    (h : buildManifest items k ≠ none) :
    ∃ item, findItem items k = some item ∧ item.ID = k ∧ item ∈ items := by
  rw [Ne, buildManifest_none] at h
  push_neg at h
  obtain ⟨it, hmem, hid⟩ := h
  cases hf : findItem items k with
  | none =>
    unfold findItem at hf
    rw [List.find?_eq_none] at hf
    have := hf it hmem
    simp [hid] at this
  | some item =>
    unfold findItem at hf
    have h1 := List.find?_some hf
    have h2 := List.mem_of_find?_eq_some hf
    exact ⟨item, rfl, by simpa using h1, h2⟩

/-! ## Lemmas on navigation -/

theorem wrapInt_id (x : Int) (hlo : -(2 ^ 63) ≤ x) (hhi : x < 2 ^ 63) : wrapInt x = x := by
  unfold wrapInt
  omega

/-- In range, an error of `GetChapterHTML` has a message that starts with `f`. -/
theorem GetChapterHTML_err_head (lib : HtmlLib) (e : Reader) (i : Int)
    (h : ¬ (i < 0 ∨ i ≥ e.chapters.length)) (m : String)
    (hm : (GetChapterHTML lib e i).err = some m) : m.data.head? = some 'f' := by
  unfold GetChapterHTML at hm
  rw [if_neg h] at hm
  simp only at hm
  split at hm
  · simp only [Option.some.injEq] at hm
    subst hm
    rfl
  · split at hm
    · simp only [Option.some.injEq] at hm
      subst hm
      rfl
    · simp at hm

theorem GetChapterHTML_err_ne (lib : HtmlLib) (e : Reader) (i : Int)
    (h : ¬ (i < 0 ∨ i ≥ e.chapters.length)) (m : String) (c : Char)
    (hc : m.data.head? = some c) (hcf : c ≠ 'f') :
    (GetChapterHTML lib e i).err ≠ some m := by
  intro hm
  have := GetChapterHTML_err_head lib e i h m hm
  rw [hc] at this
  exact hcf (Option.some.inj this)

/-! ## Navigation predicates -/

/-- C15 (counterexample): in the sample book of two chapters,
`HasNextChapter(-5)` is true although -4 is not a chapter index and
`GetNextChapterHTML(-5)` fails with the out-of-range error; `HasPrevChapter(5)`
is true although 4 is not a chapter index and `GetPrevChapterHTML(5)` fails
with the out-of-range error; and at the largest `int` the successor wraps to
the smallest one, so `HasNextChapter` is true there as well. -/
theorem has_next_prev_outside_range :
    GetChapterCount sampleReader = 2 ∧
    HasNextChapter sampleReader (-5) = true ∧
    ¬ (0 ≤ (-5 : Int) + 1 ∧ (-5 : Int) + 1 < GetChapterCount sampleReader) ∧
    (GetNextChapterHTML sampleLib sampleReader (-5)).err =
      some "chapter index -4 out of range" ∧
    HasPrevChapter sampleReader 5 = true ∧
    ¬ (0 ≤ (5 : Int) - 1 ∧ (5 : Int) - 1 < GetChapterCount sampleReader) ∧
    (GetPrevChapterHTML sampleLib sampleReader 5).err =
      some "chapter index 4 out of range" ∧
    HasNextChapter sampleReader (2 ^ 63 - 1) = true ∧
    ¬ (0 ≤ (2 ^ 63 - 1 : Int) + 1 ∧ (2 ^ 63 - 1 : Int) + 1 < GetChapterCount sampleReader) ∧
    (GetNextChapterHTML sampleLib sampleReader (2 ^ 63 - 1)).err =
      some "chapter index -9223372036854775808 out of range" := by
  decide

/-- C15 (amended): `HasNextChapter` is right for every current index from -1
on whose successor is representable, `HasPrevChapter` for every current index
up to the chapter count. There each predicate is true exactly when the target
index is a chapter index, and exactly when `GetNextChapterHTML`, respectively
`GetPrevChapterHTML`, fails neither with the `no next chapter` /
`no previous chapter` error nor with an out-of-range error (for the latter
equivalence of `HasPrevChapter` the index and the chapter count are `int`
values). -/
theorem has_next_prev_one_sided (lib : HtmlLib) (e : Reader) (currentIndex : Int) :
    (-1 ≤ currentIndex → currentIndex + 1 < 2 ^ 63 →
      (HasNextChapter e currentIndex = true ↔
        (0 ≤ currentIndex + 1 ∧ currentIndex + 1 < GetChapterCount e)) ∧
      (HasNextChapter e currentIndex = true ↔
        ¬ ((GetNextChapterHTML lib e currentIndex).err = some "no next chapter available" ∨
          ∃ j : Int, (GetNextChapterHTML lib e currentIndex).err =
            some ("chapter index " ++ toString j ++ " out of range")))) ∧
    (currentIndex ≤ GetChapterCount e →
      (HasPrevChapter e currentIndex = true ↔
        (0 ≤ currentIndex - 1 ∧ currentIndex - 1 < GetChapterCount e)) ∧
      (-(2 ^ 63) ≤ currentIndex → GetChapterCount e < 2 ^ 63 →
        (HasPrevChapter e currentIndex = true ↔
          ¬ ((GetPrevChapterHTML lib e currentIndex).err =
              some "no previous chapter available" ∨
            ∃ j : Int, (GetPrevChapterHTML lib e currentIndex).err =
              some ("chapter index " ++ toString j ++ " out of range"))))) := by
  unfold GetChapterCount
  have hprev : HasPrevChapter e currentIndex = true ↔ currentIndex > 0 := by
    simp [HasPrevChapter]
  constructor
  · intro hlo hrep
    have hn : wrapInt (currentIndex + 1) = currentIndex + 1 := wrapInt_id _ (by omega) hrep
    have hnext : HasNextChapter e currentIndex = true ↔
        currentIndex + 1 < (e.chapters.length : Int) := by
      simp [HasNextChapter, hn]
    constructor
    · rw [hnext]
      constructor
      · intro h; exact ⟨by omega, h⟩
      · intro h; exact h.2
    · rw [hnext]
      unfold GetNextChapterHTML
      simp only [hn]
      by_cases hlt : currentIndex + 1 < (e.chapters.length : Int)
      · have hge : ¬ (currentIndex + 1 ≥ (e.chapters.length : Int)) := by omega
        have hin : ¬ (currentIndex + 1 < 0 ∨
            currentIndex + 1 ≥ (e.chapters.length : Int)) := by omega
        rw [if_neg hge]
        simp only [hlt, true_iff]
        rintro (h | ⟨j, h⟩)
        · exact GetChapterHTML_err_ne lib e _ hin "no next chapter available" 'n' rfl
            (by decide) h
        · exact GetChapterHTML_err_ne lib e _ hin
            ("chapter index " ++ toString j ++ " out of range") 'c' rfl (by decide) h
      · have hge : currentIndex + 1 ≥ (e.chapters.length : Int) := by omega
        rw [if_pos hge]
        simp only [hlt, false_iff, not_not]
        exact Or.inl rfl
  · intro hhi
    constructor
    · rw [hprev]
      constructor
      · intro h; exact ⟨by omega, by omega⟩
      · intro h; omega
    · intro hmin hlen
      rw [hprev]
      unfold GetPrevChapterHTML
      by_cases hgt : currentIndex > 0
      · have hp : wrapInt (currentIndex - 1) = currentIndex - 1 :=
          wrapInt_id _ (by omega) (by omega)
        have hge : ¬ (currentIndex - 1 < 0) := by omega
        have hin : ¬ (currentIndex - 1 < 0 ∨
            currentIndex - 1 ≥ (e.chapters.length : Int)) := by omega
        simp only [hp]
        rw [if_neg hge]
        simp only [hgt, true_iff]
        rintro (h | ⟨j, h⟩)
        · exact GetChapterHTML_err_ne lib e _ hin "no previous chapter available" 'n' rfl
            (by decide) h
        · exact GetChapterHTML_err_ne lib e _ hin
            ("chapter index " ++ toString j ++ " out of range") 'c' rfl (by decide) h
      · simp only [hgt, false_iff, not_not]
        by_cases hm : currentIndex = -(2 ^ 63)
        · have hp : wrapInt (currentIndex - 1) = 2 ^ 63 - 1 := by
            rw [hm]
            unfold wrapInt
            omega
          simp only [hp]
          have hge : ¬ ((2 ^ 63 - 1 : Int) < 0) := by omega
          have hout : (2 ^ 63 - 1 : Int) < 0 ∨ (2 ^ 63 - 1 : Int) ≥ (e.chapters.length : Int) := by
            omega
          rw [if_neg hge]
          refine Or.inr ⟨2 ^ 63 - 1, ?_⟩
          unfold GetChapterHTML
          rw [if_pos hout, outOfRange_msg]
        · have hp : wrapInt (currentIndex - 1) = currentIndex - 1 :=
            wrapInt_id _ (by omega) (by omega)
          have hlt : currentIndex - 1 < 0 := by omega
          simp only [hp]
          rw [if_pos hlt]
          exact Or.inl rfl

/-- Instance of the amended C15 on the sample book of two chapters: the
predicates at the indices 0 and 1, `HasNextChapter` at the index 7 above the
book and `HasPrevChapter` at the index -3 below it, where both are false as
the target indices 8 and -4 are no chapter indices. -/
theorem has_next_prev_one_sided_witness :
    ((-1 : Int) ≤ 7 ∧ (7 : Int) + 1 < 2 ^ 63 ∧ (-3 : Int) ≤ GetChapterCount sampleReader ∧
      -(2 ^ 63) ≤ (-3 : Int) ∧ GetChapterCount sampleReader < 2 ^ 63) ∧
    (HasNextChapter sampleReader 0 = true ∧ HasPrevChapter sampleReader 0 = false) ∧
    (HasNextChapter sampleReader 1 = false ∧ HasPrevChapter sampleReader 1 = true) ∧
    (HasNextChapter sampleReader 7 = false ∧ HasPrevChapter sampleReader (-3) = false) ∧
    (HasNextChapter sampleReader 7 = true ↔
      (0 ≤ (7 : Int) + 1 ∧ (7 : Int) + 1 < GetChapterCount sampleReader)) ∧
    (HasNextChapter sampleReader 0 = true ↔
      ¬ ((GetNextChapterHTML sampleLib sampleReader 0).err =
          some "no next chapter available" ∨
        ∃ j : Int, (GetNextChapterHTML sampleLib sampleReader 0).err =
          some ("chapter index " ++ toString j ++ " out of range"))) ∧
    (HasPrevChapter sampleReader (-3) = true ↔
      (0 ≤ (-3 : Int) - 1 ∧ (-3 : Int) - 1 < GetChapterCount sampleReader)) ∧
    (HasPrevChapter sampleReader (-3) = true ↔
      ¬ ((GetPrevChapterHTML sampleLib sampleReader (-3)).err =
          some "no previous chapter available" ∨
        ∃ j : Int, (GetPrevChapterHTML sampleLib sampleReader (-3)).err =
          some ("chapter index " ++ toString j ++ " out of range"))) :=
  ⟨by decide, by decide, by decide, by decide,
    ((has_next_prev_one_sided sampleLib sampleReader 7).1 (by decide) (by decide)).1,
    ((has_next_prev_one_sided sampleLib sampleReader 0).1 (by decide) (by decide)).2,
    ((has_next_prev_one_sided sampleLib sampleReader (-3)).2 (by decide)).1,
    ((has_next_prev_one_sided sampleLib sampleReader (-3)).2 (by decide)).2
      (by decide) (by decide)⟩

/-! ## Manifest lookup of a chapter -/

theorem extractChapters_reader (e : Reader) : (extractChapters e).1.reader = e.reader := by
  unfold extractChapters
  cases e.reader.Rootfiles <;> rfl

theorem errorf_open (err : String) :
    Errorf "failed to open chapter content: %w" [Arg.err err] =
      "failed to open chapter content: " ++ err := by
  apply String.ext
  simp [Errorf, Sprintf]

theorem errorf_read (err : String) :
    Errorf "failed to read chapter content: %w" [Arg.err err] =
      "failed to read chapter content: " ++ err := by
  apply String.ext
  simp [Errorf, Sprintf]

/-- C18: for a reader whose chapter list was built by `extractChapters` from
its root file and an index in range, the manifest search of
`GetChapterContent` finds an item whose ID is that of the chapter; the call
opens that item and fails only when opening or reading the entry fails. -/
theorem item_found_for_chapter (e0 : Reader) (rootfile : epub.Rootfile)
    (rest : List epub.Rootfile) (h : e0.reader.Rootfiles = rootfile :: rest) (i : Int)
    (hlo : 0 ≤ i) (hhi : i < GetChapterCount (extractChapters e0).1) :
    ∃ chapter item,
      (extractChapters e0).1.chapters[i.toNat]? = some chapter ∧
      findItem rootfile.Manifest.Items chapter.ID = some item ∧
      item.ID = chapter.ID ∧
      GetChapterContent (extractChapters e0).1 i =
        (match e0.reader.Open item with
        | Except.error err => ⟨"", some ("failed to open chapter content: " ++ err), [item]⟩
        | Except.ok (Except.error err) =>
          ⟨"", some ("failed to read chapter content: " ++ err), [item]⟩
        | Except.ok (Except.ok content) => ⟨content, none, [item]⟩) := by
  unfold GetChapterCount at hhi
  have hin : ¬ (i < 0 ∨ i ≥ ((extractChapters e0).1.chapters.length : Int)) := by omega
  have hnat : i.toNat < (extractChapters e0).1.chapters.length := by omega
  have hres : ∀ c ∈ (extractChapters e0).1.chapters,
      buildManifest rootfile.Manifest.Items c.ID ≠ none := by
    simp only [extractChapters, h]
    exact chapterLoop_resolved _ _ 0 [] (fun c hc => by cases hc)
  obtain ⟨item, hfind, hid, _⟩ := findItem_of_manifest rootfile.Manifest.Items _
    (hres _ (List.get_mem _ i.toNat hnat))
  refine ⟨(extractChapters e0).1.chapters.get ⟨i.toNat, hnat⟩, item, ?_, hfind, hid, ?_⟩
  · rw [List.getElem?_eq_getElem hnat]
    rfl
  · unfold GetChapterContent
    rw [dif_neg hin]
    simp only [extractChapters_reader, h, hfind]
    cases hO : e0.reader.Open item with
    | error err => simp only [errorf_open]
    | ok r =>
      cases r with
      | error err => simp only [errorf_read]
      | ok content => rfl

/-- Instance of C18 on the sample book: the second chapter `ch3` is found in
the manifest and its entry is opened. -/
theorem item_found_for_chapter_witness :
    (sampleFresh.reader.Rootfiles = sampleRootfile :: [] ∧ (0 : Int) ≤ 1 ∧
      (1 : Int) < GetChapterCount (extractChapters sampleFresh).1) ∧
    (∃ chapter item,
      (extractChapters sampleFresh).1.chapters[(1 : Int).toNat]? = some chapter ∧
      findItem sampleRootfile.Manifest.Items chapter.ID = some item ∧
      item.ID = chapter.ID ∧
      GetChapterContent (extractChapters sampleFresh).1 1 =
        (match sampleFresh.reader.Open item with
        | Except.error err => ⟨"", some ("failed to open chapter content: " ++ err), [item]⟩
        | Except.ok (Except.error err) =>
          ⟨"", some ("failed to read chapter content: " ++ err), [item]⟩
        | Except.ok (Except.ok content) => ⟨content, none, [item]⟩)) ∧
    (GetChapterContent (extractChapters sampleFresh).1 1).opened.map epub.Item.ID = ["ch3"] :=
  ⟨⟨rfl, by decide, by decide⟩,
    item_found_for_chapter sampleFresh sampleRootfile [] rfl 1 (by decide) (by decide),
    by decide⟩

/-! ## Title lookup -/

/-- C19: for a reader whose chapter list was built by `extractChapters`, the
chapter titles are pairwise distinct and `FindChapterByTitle` applied to the
title of the chapter at an index in range returns that index; for every reader
`GetChapterTitle` is empty at an index out of range. -/
theorem title_lookup_roundtrip (e0 : Reader) (rootfile : epub.Rootfile)
    (rest : List epub.Rootfile) (h : e0.reader.Rootfiles = rootfile :: rest) :
    (extractChapters e0).1.chapters.Pairwise (fun a b => a.Title ≠ b.Title) ∧
    (∀ i : Int, 0 ≤ i → i < GetChapterCount (extractChapters e0).1 →
      FindChapterByTitle (extractChapters e0).1
        (GetChapterTitle (extractChapters e0).1 i) = i) ∧
    (∀ (e : Reader) (i : Int), i < 0 ∨ i ≥ GetChapterCount e → GetChapterTitle e i = "") := by
  have hd := extractChapters_titles_distinct e0 rootfile rest h
  refine ⟨hd, ?_, ?_⟩
  · intro i hlo hhi
    unfold GetChapterCount at hhi
    have hin : ¬ (i < 0 ∨ i ≥ ((extractChapters e0).1.chapters.length : Int)) := by omega
    unfold GetChapterTitle FindChapterByTitle
    rw [dif_neg hin, findTitleLoop_get _ hd 0 i.toNat (by omega)]
    omega
  · intro e i hi
    unfold GetChapterCount at hi
    unfold GetChapterTitle
    rw [dif_pos hi]

/-- Instance of C19 on the sample book, whose titles are `Chapter 1` and
`Chapter 3`. -/
theorem title_lookup_roundtrip_witness :
    sampleFresh.reader.Rootfiles = sampleRootfile :: [] ∧
    GetChapterTitle (extractChapters sampleFresh).1 1 = "Chapter 3" ∧
    FindChapterByTitle (extractChapters sampleFresh).1
      (GetChapterTitle (extractChapters sampleFresh).1 1) = 1 ∧
    GetChapterTitle (extractChapters sampleFresh).1 2 = "" ∧
    GetChapterTitle (extractChapters sampleFresh).1 (-1) = "" :=
  ⟨rfl, by decide,
    (title_lookup_roundtrip sampleFresh sampleRootfile [] rfl).2.1 1 (by decide) (by decide),
    (title_lookup_roundtrip sampleFresh sampleRootfile [] rfl).2.2 _ 2 (by decide),
    (title_lookup_roundtrip sampleFresh sampleRootfile [] rfl).2.2 _ (-1) (by decide)⟩

end EpubReader
